import Mathlib

/-!
Shallow embedding of the voxworld voxel core (src/src/voxel/...) and proofs
about its claimed properties.

Modelling conventions:
* Rust `i32` world / chunk coordinates are modelled as `ℤ`; none of the
  verified operations can overflow on the value ranges they are used at, so
  no wrap-around is modelled (where a cast to `usize` occurs behind a bounds
  check, the checked value is non-negative).
* Rust `f32`/`f64` arithmetic is modelled exactly over `ℚ`.  The claims under
  study are about control flow driven by comparisons (epsilon tests, guards),
  not about rounding, and every comparison below is structurally identical to
  the source comparison.
* `Vec<T>` is `List T`; `HashMap<usize, T>` is `Nat → Option T`;
  `HashSet<usize>` is `Nat → Bool`; `HashMap<ChunkPos, ChunkData>` is an
  association list `List (ChunkPos × ChunkData)` (first match wins, insert
  replaces), which realises the map abstraction the source relies on.
* The `noise` crate's `Perlin` generator is external to the repository; it is
  a pure function of its seed, modelled by an uninterpreted parameter
  `g2 : Nat → ℚ → ℚ → ℚ` / `g3 : Nat → ℚ → ℚ → ℚ → ℚ` (seed, coordinates ↦
  value).  A `Perlin` value stores the seed it was built from, exactly as
  `Perlin::new(seed)` does.
-/

/-- `VoxelKind` from src/src/voxel/voxel_kind.rs: the closed enumeration of
block kinds. -/
inductive VoxelKind where
  | Air | Grass | Dirt | Stone | Sand | Gravel | Clay | Snow | Ice | Water
  | OakLog | OakLeaves | BirchLog | BirchLeaves | SpruceLog | SpruceLeaves
  | Cactus | CoalOre | IronOre | GoldOre | DiamondOre | Flower | TallGrass
  | DeadBush
  deriving DecidableEq, Repr

namespace VoxelKind

/-- The thermal-relevant slice of `VoxelProperties` (voxel_kind.rs).  The
moisture / combustion-detail / phase / structural / growth fields are omitted:
no claim under verification reads them. -/
structure Props where
  temperature : ℚ
  heat_capacity : ℚ
  thermal_conductivity : ℚ
  env_exchange_coef : ℚ
  is_flammable : Bool
  deriving DecidableEq, Repr

/-- `VoxelKind::def().props`, restricted to the fields above; the numeric
values are transcribed from the `def()` match in voxel_kind.rs. -/
def props : VoxelKind → Props
  | Air          => ⟨20, 1, 13/500, 0, false⟩
  | Grass        => ⟨18, 800, 1/4, 1/10, true⟩
  | Dirt         => ⟨16, 1500, 4/5, 1/20, false⟩
  | Stone        => ⟨12, 2000, 5/2, 1/50, false⟩
  | Sand         => ⟨28, 830, 1/4, 3/20, false⟩
  | Gravel       => ⟨14, 1200, 3/2, 1/20, false⟩
  | Clay         => ⟨15, 900, 1, 3/100, false⟩
  | Snow         => ⟨-5, 2090, 1/10, 1/5, false⟩
  | Ice          => ⟨-10, 2090, 111/50, 1/10, false⟩
  | Water        => ⟨14, 4186, 3/5, 3/10, false⟩
  | OakLog       => ⟨20, 1700, 3/25, 1/20, true⟩
  | OakLeaves    => ⟨22, 500, 1/20, 3/10, true⟩
  | BirchLog     => ⟨18, 1600, 7/50, 1/20, true⟩
  | BirchLeaves  => ⟨20, 500, 1/20, 3/10, true⟩
  | SpruceLog    => ⟨8, 1800, 11/100, 1/25, true⟩
  | SpruceLeaves => ⟨6, 550, 3/50, 1/4, true⟩
  | Cactus       => ⟨35, 3500, 1/2, 1/10, false⟩
  | CoalOre      => ⟨12, 1300, 1/5, 1/50, true⟩
  | IronOre      => ⟨12, 450, 80, 1/50, false⟩
  | GoldOre      => ⟨12, 129, 317, 1/50, false⟩
  | DiamondOre   => ⟨12, 509, 2200, 1/100, false⟩
  | Flower       => ⟨22, 300, 1/10, 1/2, true⟩
  | TallGrass    => ⟨20, 200, 2/25, 3/5, true⟩
  | DeadBush     => ⟨32, 150, 1/20, 2/5, true⟩

/-- `VoxelKind::is_transparent` (voxel_kind.rs). -/
def is_transparent : VoxelKind → Bool
  | Air | Water | Ice | OakLeaves | BirchLeaves | SpruceLeaves
  | Flower | TallGrass | DeadBush => true
  | _ => false

/-- `VoxelKind::is_solid` (voxel_kind.rs). -/
def is_solid : VoxelKind → Bool
  | Air | Flower | TallGrass | DeadBush => false
  | _ => true

end VoxelKind

/-- `VoxelFlags` (flags.rs) is a `bitflags` wrapper over `u16`; modelled as the
underlying `ℕ` bit pattern. -/
abbrev VoxelFlags := ℕ

namespace VoxelFlags

def NONE : VoxelFlags := 0
def BURNING : VoxelFlags := 1
def HOT : VoxelFlags := 8
def COLD : VoxelFlags := 16

/-- `bitflags` `insert`: set the given bits. -/
def finsert (f g : VoxelFlags) : VoxelFlags := f ||| g

/-- `bitflags` `remove`: clear the given bits (complement within `u16`). -/
def fremove (f g : VoxelFlags) : VoxelFlags := f &&& (65535 ^^^ g)

/-- `bitflags` `contains`: all given bits set. -/
def fcontains (f g : VoxelFlags) : Bool := f &&& g = g

end VoxelFlags

/-- `BlockChange` (change.rs): one entry of a chunk's change log. -/
inductive BlockChange where
  | SetVoxel (idx : ℕ) (old new : VoxelKind)
  | SetFlag (idx : ℕ) (flag : VoxelFlags) (set : Bool)
  | SetVariant (idx : ℕ) (old new : ℕ)
  | SetTemp (idx : ℕ) (temp : ℚ)
  | SetMoisture (idx : ℕ) (moisture : ℚ)
  deriving DecidableEq, Repr

/-- `ThermalState` (domains/thermal/state.rs): sparse per-cell thermal data.
`HashMap<usize, f32>` is modelled as `ℕ → Option ℚ`. -/
structure ThermalState where
  temp_overrides : ℕ → Option ℚ
  heat_buffer : ℕ → Option ℚ

/-- `ThermalState::default()`: both maps empty. -/
def ThermalState.default : ThermalState := ⟨fun _ => none, fun _ => none⟩

/-- `ChunkPos` (chunk.rs). -/
structure ChunkPos where
  x : ℤ
  y : ℤ
  z : ℤ
  deriving DecidableEq, Repr

/-- `IVec3` (bevy), restricted to what the core uses. -/
structure IVec3 where
  x : ℤ
  y : ℤ
  z : ℤ
  deriving DecidableEq, Repr

/-- `CHUNK_SIZE` (constants.rs). -/
def CHUNK_SIZE : ℤ := 16

namespace ChunkPos

/-- `ChunkPos::from_world_pos`: Euclidean division by `CHUNK_SIZE`
(`i32::div_euclid`, which `Int.ediv` matches for the positive divisor 16). -/
def from_world_pos (world_x world_y world_z : ℤ) : ChunkPos :=
  ⟨Int.ediv world_x CHUNK_SIZE, Int.ediv world_y CHUNK_SIZE,
    Int.ediv world_z CHUNK_SIZE⟩

/-- `ChunkPos::world_origin`. -/
def world_origin (p : ChunkPos) : IVec3 :=
  ⟨p.x * CHUNK_SIZE, p.y * CHUNK_SIZE, p.z * CHUNK_SIZE⟩

end ChunkPos

/-- `ChunkData` (chunk.rs).  Dense per-cell arrays are lists, the sparse
thermal state is optional, active sets are boolean membership functions. -/
structure ChunkData where
  voxels : List VoxelKind
  is_dirty : Bool
  flags : List VoxelFlags
  variant : List ℕ
  thermal_state : Option ThermalState
  active_thermal : ℕ → Bool
  active_burning : ℕ → Bool
  active_freezing : ℕ → Bool
  active_melting : ℕ → Bool
  dirty_blocks : List ℕ
  needs_remesh : Bool
  changes : List BlockChange

namespace ChunkData

/-- `ChunkData::VOXEL_COUNT` = 16³. -/
def VOXEL_COUNT : ℕ := 4096

/-- `ChunkData::new()`: all-air chunk with every auxiliary field at its
default (note `is_dirty` starts `true` in the source). -/
def new : ChunkData where
  voxels := List.replicate VOXEL_COUNT .Air
  is_dirty := true
  flags := List.replicate VOXEL_COUNT VoxelFlags.NONE
  variant := List.replicate VOXEL_COUNT 0
  thermal_state := none
  active_thermal := fun _ => false
  active_burning := fun _ => false
  active_freezing := fun _ => false
  active_melting := fun _ => false
  dirty_blocks := []
  needs_remesh := false
  changes := []

/-- `ChunkData::index`: Y-Z-X linearisation.  It is only ever applied to
coordinates already checked to lie in `[0, CHUNK_SIZE)`, so the value is
non-negative and the `as usize` cast is the identity. -/
def index (x y z : ℤ) : ℕ :=
  (y * CHUNK_SIZE * CHUNK_SIZE + z * CHUNK_SIZE + x).toNat

/-- Whether a local coordinate lies inside the chunk cube. -/
def inBounds (x y z : ℤ) : Prop :=
  0 ≤ x ∧ x < CHUNK_SIZE ∧ 0 ≤ y ∧ y < CHUNK_SIZE ∧ 0 ≤ z ∧ z < CHUNK_SIZE

instance (x y z : ℤ) : Decidable (inBounds x y z) := by
  unfold inBounds; infer_instance

/-- `ChunkData::get`: Air outside the chunk cube. -/
def get (c : ChunkData) (x y z : ℤ) : VoxelKind :=
  if x < 0 ∨ x ≥ CHUNK_SIZE ∨ y < 0 ∨ y ≥ CHUNK_SIZE ∨ z < 0 ∨ z ≥ CHUNK_SIZE then
    .Air
  else
    c.voxels.getD (index x y z) .Air

/-- `ChunkData::set`: no-op outside the chunk cube, otherwise write and mark
dirty. -/
def set (c : ChunkData) (x y z : ℤ) (kind : VoxelKind) : ChunkData :=
  if x < 0 ∨ x ≥ CHUNK_SIZE ∨ y < 0 ∨ y ≥ CHUNK_SIZE ∨ z < 0 ∨ z ≥ CHUNK_SIZE then
    c
  else
    { c with voxels := c.voxels.set (index x y z) kind, is_dirty := true }

end ChunkData

/-- `VoxelWorld` (chunk.rs): resident chunks; the `loaded_chunks` entity map
plays no role in the claims below and entity ids are modelled as `ℕ`. -/
structure VoxelWorld where
  chunks : List (ChunkPos × ChunkData)
  loaded_chunks : List (ChunkPos × ℕ)

/-- First-match lookup in an association list (`HashMap::get`). -/
def alistFind (l : List (ChunkPos × ChunkData)) (k : ChunkPos) : Option ChunkData :=
  (l.find? (fun p => p.1 = k)).map (·.2)

/-- Update the first entry with the given key, if any (`HashMap::get_mut`). -/
def alistUpdate (l : List (ChunkPos × ChunkData)) (k : ChunkPos)
    (f : ChunkData → ChunkData) : List (ChunkPos × ChunkData) :=
  match l with
  | [] => []
  | (k', v) :: t =>
    if k' = k then (k', f v) :: t else (k', v) :: alistUpdate t k f

/-- `HashMap::insert`: replace the existing entry or append a fresh one. -/
def alistInsert (l : List (ChunkPos × ChunkData)) (k : ChunkPos)
    (v : ChunkData) : List (ChunkPos × ChunkData) :=
  if (l.find? (fun p => p.1 = k)).isSome then alistUpdate l k (fun _ => v)
  else l ++ [(k, v)]

namespace VoxelWorld

/-- `VoxelWorld::get_voxel` (chunk.rs): world coordinate → owning chunk via
Euclidean division, Air when the chunk is not resident. -/
def get_voxel (w : VoxelWorld) (world_pos : IVec3) : VoxelKind :=
  let chunk_pos := ChunkPos.from_world_pos world_pos.x world_pos.y world_pos.z
  let local_x := Int.emod world_pos.x CHUNK_SIZE
  let local_y := Int.emod world_pos.y CHUNK_SIZE
  let local_z := Int.emod world_pos.z CHUNK_SIZE
  match alistFind w.chunks chunk_pos with
  | some chunk => chunk.get local_x local_y local_z
  | none => .Air

/-- `VoxelWorld::set_voxel` (chunk.rs): no-op when the owning chunk is not
resident. -/
def set_voxel (w : VoxelWorld) (world_pos : IVec3) (kind : VoxelKind) : VoxelWorld :=
  let chunk_pos := ChunkPos.from_world_pos world_pos.x world_pos.y world_pos.z
  let local_x := Int.emod world_pos.x CHUNK_SIZE
  let local_y := Int.emod world_pos.y CHUNK_SIZE
  let local_z := Int.emod world_pos.z CHUNK_SIZE
  { w with chunks :=
      alistUpdate w.chunks chunk_pos (fun chunk => chunk.set local_x local_y local_z kind) }

end VoxelWorld

/-! ## Thermal domain API (domains/thermal/api.rs) -/

/-- `TEMP_HOT_THRESHOLD` (100 °C). -/
def TEMP_HOT_THRESHOLD : ℚ := 100

/-- `TEMP_COLD_THRESHOLD` (0 °C). -/
def TEMP_COLD_THRESHOLD : ℚ := 0

/-- `TEMP_EPSILON` (0.1). -/
def TEMP_EPSILON : ℚ := 1/10

namespace ThermalApi

/-- `ThermalApi::get_temp`: sparse override if present, else the kind's
default temperature.  The source indexes `chunk.voxels[idx]` directly; the
claims only apply it at in-bounds indices, where `getD` agrees. -/
def get_temp (c : ChunkData) (idx : ℕ) : ℚ :=
  match c.thermal_state with
  | some thermal =>
    match thermal.temp_overrides idx with
    | some temp => temp
    | none => (c.voxels.getD idx .Air).props.temperature
  | none => (c.voxels.getD idx .Air).props.temperature

/-- `ThermalApi::update_temp_flags`: maintain the HOT / COLD flag bits at
`idx` and log each transition. -/
def update_temp_flags (c : ChunkData) (idx : ℕ) (temp : ℚ) : ChunkData :=
  let hot :=
    if temp > TEMP_HOT_THRESHOLD then
      if ¬ VoxelFlags.fcontains (c.flags.getD idx 0) VoxelFlags.HOT then
        { c with
          flags := c.flags.set idx (VoxelFlags.finsert (c.flags.getD idx 0) VoxelFlags.HOT),
          changes := c.changes ++ [BlockChange.SetFlag idx VoxelFlags.HOT true] }
      else c
    else
      if VoxelFlags.fcontains (c.flags.getD idx 0) VoxelFlags.HOT then
        { c with
          flags := c.flags.set idx (VoxelFlags.fremove (c.flags.getD idx 0) VoxelFlags.HOT),
          changes := c.changes ++ [BlockChange.SetFlag idx VoxelFlags.HOT false] }
      else c
  if temp < TEMP_COLD_THRESHOLD then
    if ¬ VoxelFlags.fcontains (hot.flags.getD idx 0) VoxelFlags.COLD then
      { hot with
        flags := hot.flags.set idx (VoxelFlags.finsert (hot.flags.getD idx 0) VoxelFlags.COLD),
        changes := hot.changes ++ [BlockChange.SetFlag idx VoxelFlags.COLD true] }
    else hot
  else
    if VoxelFlags.fcontains (hot.flags.getD idx 0) VoxelFlags.COLD then
      { hot with
        flags := hot.flags.set idx (VoxelFlags.fremove (hot.flags.getD idx 0) VoxelFlags.COLD),
        changes := hot.changes ++ [BlockChange.SetFlag idx VoxelFlags.COLD false] }
    else hot

/-- `ThermalApi::set_temp`: remove the override when the new value is within
`TEMP_EPSILON` of the kind default, else insert it and mark the cell
thermally active; then update flags and log the change. -/
def set_temp (c : ChunkData) (idx : ℕ) (temp : ℚ) : ChunkData :=
  let default_temp := (c.voxels.getD idx .Air).props.temperature
  let thermal := c.thermal_state.getD ThermalState.default
  let removed : ThermalState :=
    { thermal with temp_overrides := fun j => if j = idx then none else thermal.temp_overrides j }
  let inserted : ThermalState :=
    { thermal with temp_overrides := fun j => if j = idx then some temp else thermal.temp_overrides j }
  let c1 :=
    if |temp - default_temp| < TEMP_EPSILON then
      { c with thermal_state := some removed }
    else
      { c with
        thermal_state := some inserted,
        active_thermal := fun j => if j = idx then true else c.active_thermal j }
  let c2 := update_temp_flags c1 idx temp
  { c2 with
    changes := c2.changes ++ [BlockChange.SetTemp idx temp],
    dirty_blocks := c2.dirty_blocks ++ [idx] }

/-- `ThermalApi::add_heat`: `ΔT = heat / heat_capacity`, guarded against a
non-positive heat capacity. -/
def add_heat (c : ChunkData) (idx : ℕ) (heat : ℚ) : ChunkData :=
  let current_temp := get_temp c idx
  let heat_capacity := (c.voxels.getD idx .Air).props.heat_capacity
  if heat_capacity ≤ 0 then c
  else
    let delta_temp := heat / heat_capacity
    set_temp c idx (current_temp + delta_temp)

end ThermalApi

/-! ## Domain commands and the Commit stage (domains/command.rs) -/

/-- `DomainCommand` (domains/command.rs): the sole mutation interface. -/
inductive DomainCommand where
  | SetBlock (idx : ℕ) (new_voxel : VoxelKind)
  | AddFlag (idx : ℕ) (flag : VoxelFlags)
  | RemoveFlag (idx : ℕ) (flag : VoxelFlags)
  | SetVariant (idx : ℕ) (variant : ℕ)
  | IncrementVariant (idx : ℕ)
  | DecrementVariant (idx : ℕ)
  | SetTemp (idx : ℕ) (temp : ℚ)
  | AddHeat (idx : ℕ) (heat : ℚ)
  | SetMoisture (idx : ℕ) (moisture : ℚ)
  | AddMoisture (idx : ℕ) (delta : ℚ)
  | Ignite (idx : ℕ) (power : ℚ)
  | Extinguish (idx : ℕ)
  deriving DecidableEq, Repr

namespace DomainCommand

/-- `DomainCommand::idx`: the targeted cell index. -/
def idx : DomainCommand → ℕ
  | SetBlock i _ | AddFlag i _ | RemoveFlag i _ | SetVariant i _
  | IncrementVariant i | DecrementVariant i | SetTemp i _ | AddHeat i _
  | SetMoisture i _ | AddMoisture i _ | Ignite i _ | Extinguish i => i

/-- `matches!(c, DomainCommand::SetBlock { .. })`. -/
def isSetBlock : DomainCommand → Bool
  | SetBlock _ _ => true
  | _ => false

end DomainCommand

/-- `CommandQueue` (domains/command.rs). -/
structure CommandQueue where
  commands : List DomainCommand
  deriving DecidableEq, Repr

/-- `CommandQueue::push`: the chunk position argument is dropped by the
source ("简化实现" — the simplified implementation stores only the bare
command). -/
def CommandQueue.push (q : CommandQueue) (_chunk_pos : ChunkPos)
    (command : DomainCommand) : CommandQueue :=
  { q with commands := q.commands ++ [command] }

/-- `execute_command` (domains/command.rs): apply one resolved command to one
chunk, bounds-guarded per array, appending to the change log and dirty list. -/
def execute_command (chunk : ChunkData) (cmd : DomainCommand) : ChunkData :=
  match cmd with
  | .SetBlock idx new_voxel =>
    if idx < chunk.voxels.length then
      let old := chunk.voxels.getD idx .Air
      { chunk with
        voxels := chunk.voxels.set idx new_voxel,
        changes := chunk.changes ++ [BlockChange.SetVoxel idx old new_voxel],
        dirty_blocks := chunk.dirty_blocks ++ [idx],
        needs_remesh := true,
        is_dirty := true }
    else chunk
  | .AddFlag idx flag =>
    if idx < chunk.flags.length then
      { chunk with
        flags := chunk.flags.set idx (VoxelFlags.finsert (chunk.flags.getD idx 0) flag),
        changes := chunk.changes ++ [BlockChange.SetFlag idx flag true],
        dirty_blocks := chunk.dirty_blocks ++ [idx] }
    else chunk
  | .RemoveFlag idx flag =>
    if idx < chunk.flags.length then
      { chunk with
        flags := chunk.flags.set idx (VoxelFlags.fremove (chunk.flags.getD idx 0) flag),
        changes := chunk.changes ++ [BlockChange.SetFlag idx flag false],
        dirty_blocks := chunk.dirty_blocks ++ [idx] }
    else chunk
  | .SetVariant idx variant =>
    if idx < chunk.variant.length then
      let old := chunk.variant.getD idx 0
      { chunk with
        variant := chunk.variant.set idx variant,
        changes := chunk.changes ++ [BlockChange.SetVariant idx old variant],
        dirty_blocks := chunk.dirty_blocks ++ [idx] }
    else chunk
  | .IncrementVariant idx =>
    if idx < chunk.variant.length then
      let old := chunk.variant.getD idx 0
      let newv := min (old + 1) 255
      { chunk with
        variant := chunk.variant.set idx newv,
        changes := chunk.changes ++ [BlockChange.SetVariant idx old newv],
        dirty_blocks := chunk.dirty_blocks ++ [idx] }
    else chunk
  | .DecrementVariant idx =>
    if idx < chunk.variant.length then
      let old := chunk.variant.getD idx 0
      let newv := old - 1
      { chunk with
        variant := chunk.variant.set idx newv,
        changes := chunk.changes ++ [BlockChange.SetVariant idx old newv],
        dirty_blocks := chunk.dirty_blocks ++ [idx] }
    else chunk
  | .SetTemp idx temp =>
    if idx < chunk.voxels.length then ThermalApi.set_temp chunk idx temp
    else chunk
  | .AddHeat idx heat =>
    if idx < chunk.voxels.length then ThermalApi.add_heat chunk idx heat
    else chunk
  | .SetMoisture idx moisture =>
    if idx < chunk.voxels.length then
      { chunk with changes := chunk.changes ++ [BlockChange.SetMoisture idx moisture] }
    else chunk
  | .AddMoisture _ _ => chunk
  | .Ignite idx _power =>
    if idx < chunk.flags.length then
      { chunk with
        flags := chunk.flags.set idx (VoxelFlags.finsert (chunk.flags.getD idx 0) VoxelFlags.BURNING),
        active_burning := fun j => if j = idx then true else chunk.active_burning j,
        changes := chunk.changes ++ [BlockChange.SetFlag idx VoxelFlags.BURNING true],
        dirty_blocks := chunk.dirty_blocks ++ [idx] }
    else chunk
  | .Extinguish idx =>
    if idx < chunk.flags.length then
      { chunk with
        flags := chunk.flags.set idx (VoxelFlags.fremove (chunk.flags.getD idx 0) VoxelFlags.BURNING),
        active_burning := fun j => if j = idx then false else chunk.active_burning j,
        changes := chunk.changes ++ [BlockChange.SetFlag idx VoxelFlags.BURNING false],
        dirty_blocks := chunk.dirty_blocks ++ [idx] }
    else chunk

/-- The commands of `cmds` that target cell `i` — one group of the
`per_idx` HashMap built by `resolve_conflicts`, in encounter order. -/
def cmdsFor (cmds : List DomainCommand) (i : ℕ) : List DomainCommand :=
  cmds.filter (fun c => c.idx = i)

/-- The distinct target indices of `cmds` — the key set of `per_idx`.  The
source iterates a `HashMap`, whose group order is unspecified; the embedding
fixes one canonical order, and every property proved below is insensitive to
the order of the per-cell groups. -/
def keysOf (cmds : List DomainCommand) : List ℕ :=
  (cmds.map DomainCommand.idx).dedup

/-- Conflict resolution for one cell's group: the first `SetBlock` alone if
present, otherwise the whole group in encounter order. -/
def resolveGroup (cmds : List DomainCommand) (i : ℕ) : List DomainCommand :=
  match (cmdsFor cmds i).find? DomainCommand.isSetBlock with
  | some set_block => [set_block]
  | none => cmdsFor cmds i

/-- `resolve_conflicts` (domains/command.rs). -/
def resolve_conflicts (cmds : List DomainCommand) : List DomainCommand :=
  (keysOf cmds).flatMap (resolveGroup cmds)

/-- Executing a command list against one chunk, in order (the inner loop of
`commit_system`). -/
def execList (chunk : ChunkData) (cmds : List DomainCommand) : ChunkData :=
  cmds.foldl execute_command chunk

/-- `commit_system` (domains/command.rs): drain the queue, resolve conflicts
once, then execute the full resolved list against every resident chunk. -/
def commit_system (w : VoxelWorld) (q : CommandQueue) : VoxelWorld × CommandQueue :=
  let commands := q.commands
  if commands.isEmpty then (w, { q with commands := [] })
  else
    let resolved := resolve_conflicts commands
    ({ w with chunks := w.chunks.map (fun pc => (pc.1, execList pc.2 resolved)) },
      { q with commands := [] })

/-! ## Mesh building (mesh_gen.rs, loading.rs)

Only the face-culling decision is modelled: which (cell, direction) pairs get
a face.  Vertex generation, deduplication and buffer reuse (mesh.rs) carry no
claim under verification.  `mesh_gen.rs` iterates `y` up to a constant
`CHUNK_HEIGHT`; the chunk's vertical extent is kept as a parameter `H` here
(the 16³ chunk store of constants.rs corresponds to `H = 16`), and every
property proved holds for all `H`. -/

/-- `NeighborEdges` (loading.rs): optional boundary slices of the four
horizontally adjacent chunks. -/
structure NeighborEdges where
  pos_x : Option (List VoxelKind)
  neg_x : Option (List VoxelKind)
  pos_z : Option (List VoxelKind)
  neg_z : Option (List VoxelKind)

/-- An entirely absent neighbor set (`NeighborEdges::default()`). -/
def NeighborEdges.empty : NeighborEdges := ⟨none, none, none, none⟩

/-- `NeighborEdges::get_neighbor` (loading.rs): the voxel just across the
chunk boundary in direction `dir`, when that slice is present and `local_pos`
sits on the matching boundary.  The slice is indexed `y * CHUNK_SIZE + z`
(resp. `+ x`); the source indexes the `Vec` directly, total here via `getD`. -/
def NeighborEdges.get_neighbor (e : NeighborEdges) (local_pos : IVec3)
    (dir : IVec3) : Option VoxelKind :=
  if dir.x = 1 ∧ dir.y = 0 ∧ dir.z = 0 ∧ local_pos.x = CHUNK_SIZE - 1 then
    e.pos_x.map (fun f => f.getD (local_pos.y * CHUNK_SIZE + local_pos.z).toNat .Air)
  else if dir.x = -1 ∧ dir.y = 0 ∧ dir.z = 0 ∧ local_pos.x = 0 then
    e.neg_x.map (fun f => f.getD (local_pos.y * CHUNK_SIZE + local_pos.z).toNat .Air)
  else if dir.x = 0 ∧ dir.y = 0 ∧ dir.z = 1 ∧ local_pos.z = CHUNK_SIZE - 1 then
    e.pos_z.map (fun f => f.getD (local_pos.y * CHUNK_SIZE + local_pos.x).toNat .Air)
  else if dir.x = 0 ∧ dir.y = 0 ∧ dir.z = -1 ∧ local_pos.z = 0 then
    e.neg_z.map (fun f => f.getD (local_pos.y * CHUNK_SIZE + local_pos.x).toNat .Air)
  else none

/-- The six axis directions, in the order `build_chunk_mesh_async` tests
them. -/
def directions : List IVec3 :=
  [⟨1,0,0⟩, ⟨-1,0,0⟩, ⟨0,1,0⟩, ⟨0,-1,0⟩, ⟨0,0,1⟩, ⟨0,0,-1⟩]

/-- The neighbor lookup of `build_chunk_mesh_async`: intra-chunk when inside
the volume, Air beyond the vertical world bounds, else the boundary slice
(absent slices default to Air). -/
def resolveNeighbor (H : ℤ) (voxels : List VoxelKind) (edges : NeighborEdges)
    (local_pos : IVec3) (dir : IVec3) : VoxelKind :=
  let nx := local_pos.x + dir.x
  let ny := local_pos.y + dir.y
  let nz := local_pos.z + dir.z
  if 0 ≤ nx ∧ nx < CHUNK_SIZE ∧ 0 ≤ ny ∧ ny < H ∧ 0 ≤ nz ∧ nz < CHUNK_SIZE then
    voxels.getD (ChunkData.index nx ny nz) .Air
  else if ny < 0 ∨ ny ≥ H then .Air
  else (edges.get_neighbor local_pos dir).getD .Air

/-- The per-face emission test of `build_chunk_mesh_async`: the two
`continue`s — skip covered faces, skip water-water faces. -/
def faceEmitted (H : ℤ) (voxels : List VoxelKind) (edges : NeighborEdges)
    (local_pos : IVec3) (dir : IVec3) : Bool :=
  let kind := voxels.getD (ChunkData.index local_pos.x local_pos.y local_pos.z) .Air
  let neighbor := resolveNeighbor H voxels edges local_pos dir
  neighbor.is_transparent && !(kind == .Water && neighbor == .Water)

/-- `build_chunk_mesh_async` (mesh_gen.rs), reduced to the list of emitted
(cell, direction) faces: the y/z/x triple loop skips Air cells and emits each
direction passing `faceEmitted`. -/
def buildChunkFaces (H : ℤ) (voxels : List VoxelKind) (edges : NeighborEdges) :
    List (IVec3 × IVec3) :=
  (List.range H.toNat).flatMap fun yn =>
    (List.range CHUNK_SIZE.toNat).flatMap fun zn =>
      (List.range CHUNK_SIZE.toNat).flatMap fun xn =>
        let p : IVec3 := ⟨(xn : ℤ), (yn : ℤ), (zn : ℤ)⟩
        if voxels.getD (ChunkData.index p.x p.y p.z) .Air = .Air then []
        else (directions.filter (faceEmitted H voxels edges p)).map fun dir => (p, dir)

/-! ## Chunk streaming batch apply (systems.rs) -/

/-- `CompletedChunk` (loading.rs): a finished background generation result.
The built `Mesh` and the placeholder entity id only drive render-entity
bookkeeping, which no claim below touches, so the mesh is reduced to the flag
`apply_chunk_replacements` reads (whether it has any indices). -/
structure CompletedChunk where
  chunk_pos : ChunkPos
  voxels : List VoxelKind
  has_geometry : Bool

/-- The chunk-store effect of one iteration of the `apply_chunk_replacements`
drain loop (systems.rs): a fresh `ChunkData::new()` carrying exactly the
generated voxels, with `is_dirty` forced to `false`, replaces whatever was
resident at that coordinate. -/
def applyCompleted (w : VoxelWorld) (completed : CompletedChunk) : VoxelWorld :=
  let chunk_data := { ChunkData.new with voxels := completed.voxels, is_dirty := false }
  { w with chunks := alistInsert w.chunks completed.chunk_pos chunk_data }

/-- The full drain of the replacement buffer (the loop of
`apply_chunk_replacements`, restricted to its chunk-store effect). -/
def applyChunkReplacements (w : VoxelWorld) (buffer : List CompletedChunk) : VoxelWorld :=
  buffer.foldl applyCompleted w

/-! ## Terrain generation (seed.rs, biome.rs, terrain.rs, mesh_gen.rs)

The `noise` crate's `Perlin::new(seed)` builds a deterministic permutation
table from its `u32` seed and `get` is a pure function of that table and the
input point.  The crate is outside this repository, so noise evaluation is an
arbitrary pure function parameter: `g2 seed x z` / `g3 seed x y z` give the
value of the field with the given seed at the given point.  Every terrain
theorem is proved for all such functions. -/

/-- 2-D noise evaluation: seed, x, z ↦ value. -/
abbrev NoiseFn2 := ℕ → ℚ → ℚ → ℚ

/-- 3-D noise evaluation: seed, x, y, z ↦ value. -/
abbrev NoiseFn3 := ℕ → ℚ → ℚ → ℚ → ℚ

/-- A `Perlin` generator: fully determined by its seed. -/
structure Perlin where
  seed : ℕ
  deriving DecidableEq, Repr

/-- `WorldSeed` (seed.rs). -/
structure WorldSeed where
  seed : ℕ
  terrain_noise : Perlin
  biome_temp_noise : Perlin
  biome_humid_noise : Perlin
  cave_noise : Perlin
  detail_noise : Perlin
  deriving DecidableEq, Repr

/-- `WorldSeed::new` (seed.rs): derive the five noise fields from one seed
with fixed `u32` wrapping offsets. -/
def WorldSeed.new (seed : ℕ) : WorldSeed where
  seed := seed
  terrain_noise := ⟨seed⟩
  biome_temp_noise := ⟨(seed + 1000) % 4294967296⟩
  biome_humid_noise := ⟨(seed + 2000) % 4294967296⟩
  cave_noise := ⟨(seed + 3000) % 4294967296⟩
  detail_noise := ⟨(seed + 4000) % 4294967296⟩

/-- `Biome` (biome.rs). -/
inductive Biome where
  | Plains | Forest | BirchForest | Desert | Snowy | Taiga | Ocean | Beach
  | FloatingIslands
  deriving DecidableEq, Repr

namespace Biome

/-- `Biome::surface_block` (biome.rs). -/
def surface_block : Biome → VoxelKind
  | Plains | Forest | BirchForest => .Grass
  | Desert => .Sand
  | Snowy => .Snow
  | Taiga => .Grass
  | Ocean => .Gravel
  | Beach => .Sand
  | FloatingIslands => .Grass

/-- `Biome::subsurface_block` (biome.rs). -/
def subsurface_block : Biome → VoxelKind
  | Plains | Forest | BirchForest | Taiga => .Dirt
  | Desert | Beach => .Sand
  | Snowy => .Dirt
  | Ocean => .Clay
  | FloatingIslands => .Dirt

end Biome

/-- Rust `f64 as i32`: truncation toward zero (the saturating bounds of the
cast are unreachable at the magnitudes produced by the terrain math). -/
def f64ToI32 (q : ℚ) : ℤ := Int.tdiv q.num q.den

namespace TerrainGenerator

/-- `TerrainGenerator::get_height` (terrain.rs): two octaves of the terrain
noise field (amplitudes 12 and 6) plus one octave of the *detail* noise field
(amplitude 3), on top of base height 32, truncated to `i32` and
lower-clamped to 1. -/
def get_height (g2 : NoiseFn2) (ws : WorldSeed) (x z : ℤ) : ℤ :=
  let fx : ℚ := (x : ℚ) * (1/50)
  let fz : ℚ := (z : ℚ) * (1/50)
  let height : ℚ :=
    g2 ws.terrain_noise.seed fx fz * 12
    + g2 ws.terrain_noise.seed (fx * 2) (fz * 2) * 6
    + g2 ws.detail_noise.seed (fx * 4) (fz * 4) * 3
  max (f64ToI32 (32 + height)) 1

/-- `TerrainGenerator::get_biome` (terrain.rs). -/
def get_biome (g2 : NoiseFn2) (ws : WorldSeed) (x z : ℤ) : Biome :=
  let fx : ℚ := (x : ℚ) * (1/125)
  let fz : ℚ := (z : ℚ) * (1/125)
  let temp := g2 ws.biome_temp_noise.seed fx fz
  let humid := g2 ws.biome_humid_noise.seed fx fz
  let height := get_height g2 ws x z
  if height < 28 then .Ocean
  else if height < 32 then .Beach
  else if temp < -(3/10) then
    (if humid > 1/5 then .Taiga else .Snowy)
  else if temp > 3/10 ∧ humid < -(1/5) then .Desert
  else if humid > 3/10 then .Forest
  else if humid > 0 then .BirchForest
  else .Plains

/-- `TerrainGenerator::is_cave` (terrain.rs). -/
def is_cave (g3 : NoiseFn3) (ws : WorldSeed) (x y z : ℤ) : Bool :=
  if y > 60 ∨ y < 5 then false
  else
    g3 ws.cave_noise.seed ((x : ℚ) * (2/25)) ((y : ℚ) * (2/25)) ((z : ℚ) * (2/25)) > 11/20

/-- `TerrainGenerator::is_floating_island` (terrain.rs). -/
def is_floating_island (g2 : NoiseFn2) (g3 : NoiseFn3) (ws : WorldSeed)
    (x y z : ℤ) : Bool :=
  if y < 65 ∨ y > 110 then false
  else
    let noise_value :=
      g3 ws.terrain_noise.seed ((x : ℚ) * (3/200)) ((y : ℚ) * (3/200) * (1/2)) ((z : ℚ) * (3/200))
    let detail :=
      g3 ws.detail_noise.seed ((x : ℚ) * (3/50)) ((y : ℚ) * (3/50)) ((z : ℚ) * (3/50))
    let island_noise :=
      g2 ws.biome_temp_noise.seed ((x : ℚ) * (1/200)) ((z : ℚ) * (1/200))
    if island_noise < 3/10 then false
    else
      let y_normalized : ℚ := ((y : ℚ) - 65) / 45
      let y_factor := if y_normalized < 1/2 then y_normalized * 2 else (1 - y_normalized) * 2
      let threshold := 2/5 - y_factor * (1/5)
      noise_value + detail * (3/10) > threshold

/-- `TerrainGenerator::get_ore` (terrain.rs). -/
def get_ore (g3 : NoiseFn3) (ws : WorldSeed) (x y z : ℤ) : Option VoxelKind :=
  let noise :=
    g3 ws.detail_noise.seed ((x : ℚ) * (3/20)) ((y : ℚ) * (3/20)) ((z : ℚ) * (3/20))
  if noise > 7/10 then
    if y < 16 ∧ noise > 17/20 then some .DiamondOre
    else if y < 32 ∧ noise > 4/5 then some .GoldOre
    else if y < 48 then some .IronOre
    else some .CoalOre
  else none

/-- `TerrainGenerator::should_place_tree` (terrain.rs). -/
def should_place_tree (g2 : NoiseFn2) (ws : WorldSeed) (x z : ℤ) (biome : Biome) : Bool :=
  let tree_chance : ℚ :=
    match biome with
    | .Forest | .Taiga => 3/50
    | .BirchForest => 1/25
    | .Plains => 3/1000
    | _ => 0
  if tree_chance = 0 then false
  else
    g2 ws.detail_noise.seed ((x : ℚ) * (1/2)) ((z : ℚ) * (1/2)) > 1 - tree_chance * 2

/-- `TerrainGenerator::generate_tree_partial` (terrain.rs): stamp the portion
of a tree (trunk plus diamond-shaped leaf layers) lying inside the chunk's
vertical range. -/
def generate_tree_clipped (chunk : ChunkData) (local_x tree_base_world_y local_z : ℤ)
    (biome : Biome) (chunk_y_min chunk_y_max : ℤ) : ChunkData :=
  let pick : Option (VoxelKind × VoxelKind × ℤ) :=
    match biome with
    | .Forest | .Plains => some (.OakLog, .OakLeaves, 5)
    | .BirchForest => some (.BirchLog, .BirchLeaves, 6)
    | .Taiga | .Snowy => some (.SpruceLog, .SpruceLeaves, 6)
    | .FloatingIslands => some (.OakLog, .OakLeaves, 4)
    | _ => none
  match pick with
  | none => chunk
  | some (log, leaves, trunk_h) =>
    let withTrunk :=
      (List.range trunk_h.toNat).foldl (fun ch dyn =>
        let world_y := tree_base_world_y + (dyn : ℤ)
        if world_y ≥ chunk_y_min ∧ world_y ≤ chunk_y_max then
          ch.set local_x (world_y - chunk_y_min) local_z log
        else ch) chunk
    (List.range 4).foldl (fun ch k =>
      let dy : ℤ := trunk_h - 2 + (k : ℤ)
      let radius : ℤ := if dy ≥ trunk_h then 1 else 2
      (List.range (2 * radius + 1).toNat).foldl (fun ch dxn =>
        let dx : ℤ := -radius + (dxn : ℤ)
        (List.range (2 * radius + 1).toNat).foldl (fun ch dzn =>
          let dz : ℤ := -radius + (dzn : ℤ)
          if dx = 0 ∧ dz = 0 ∧ dy < trunk_h then ch
          else if |dx| + |dz| ≤ radius + 1 then
            let world_y := tree_base_world_y + dy
            if world_y ≥ chunk_y_min ∧ world_y ≤ chunk_y_max then
              let leaf_x := local_x + dx
              let leaf_z := local_z + dz
              if leaf_x ≥ 0 ∧ leaf_x < CHUNK_SIZE ∧ leaf_z ≥ 0 ∧ leaf_z < CHUNK_SIZE then
                ch.set leaf_x (world_y - chunk_y_min) leaf_z leaves
              else ch
            else ch
          else ch) ch) ch) withTrunk

/-- `WATER_LEVEL` (local constant of `generate_chunk`). -/
def WATER_LEVEL : ℤ := 30

/-- The per-cell kind decision of `generate_chunk`'s triple fill loop. -/
def cellKind (g2 : NoiseFn2) (g3 : NoiseFn3) (ws : WorldSeed)
    (world_x world_y world_z : ℤ) (height : ℤ) (biome : Biome) : VoxelKind :=
  if world_y = 0 then .Stone
  else if world_y < height then
    (if is_cave g3 ws world_x world_y world_z then .Air
     else if world_y = height - 1 then biome.surface_block
     else if world_y > height - 5 then biome.subsurface_block
     else (get_ore g3 ws world_x world_y world_z).getD .Stone)
  else if world_y ≥ height ∧ world_y ≤ WATER_LEVEL then
    (if biome = .Snowy ∧ world_y = WATER_LEVEL then .Ice else .Water)
  else if world_y > WATER_LEVEL ∧ is_floating_island g2 g3 ws world_x world_y world_z then
    (let above := is_floating_island g2 g3 ws world_x (world_y + 1) world_z
     let below := is_floating_island g2 g3 ws world_x (world_y - 1) world_z
     if !above then .Grass
     else if !below ∨ world_y < 68 then .Stone
     else .Dirt)
  else .Air

/-- `TerrainGenerator::generate_chunk` (terrain.rs): column fill, then surface
trees, then floating-island trees (the inner `break` of the island scan is a
first-match search). -/
def generate_chunk (g2 : NoiseFn2) (g3 : NoiseFn3) (ws : WorldSeed)
    (chunk_pos : ChunkPos) : ChunkData :=
  let origin := chunk_pos.world_origin
  let chunk_y_min := origin.y
  let chunk_y_max := origin.y + CHUNK_SIZE - 1
  let filled :=
    (List.range 16).foldl (fun ch lyn =>
      let world_y := chunk_y_min + (lyn : ℤ)
      (List.range 16).foldl (fun ch lzn =>
        (List.range 16).foldl (fun ch lxn =>
          let world_x := origin.x + (lxn : ℤ)
          let world_z := origin.z + (lzn : ℤ)
          let height := get_height g2 ws world_x world_z
          let biome := get_biome g2 ws world_x world_z
          let kind := cellKind g2 g3 ws world_x world_y world_z height biome
          if kind ≠ .Air then ch.set (lxn : ℤ) (lyn : ℤ) (lzn : ℤ) kind else ch)
          ch) ch) ChunkData.new
  let withSurfaceTrees :=
    if chunk_y_min ≤ WATER_LEVEL + 10 ∧ chunk_y_max ≥ WATER_LEVEL then
      (List.range 16).foldl (fun ch lzn =>
        (List.range 16).foldl (fun ch lxn =>
          let world_x := origin.x + (lxn : ℤ)
          let world_z := origin.z + (lzn : ℤ)
          let height := get_height g2 ws world_x world_z
          let biome := get_biome g2 ws world_x world_z
          if height > WATER_LEVEL ∧ should_place_tree g2 ws world_x world_z biome then
            generate_tree_clipped ch (lxn : ℤ) (height + 1) (lzn : ℤ) biome
              chunk_y_min chunk_y_max
          else ch) ch) filled
    else filled
  if chunk_y_min ≤ 100 ∧ chunk_y_max ≥ 65 then
    (List.range 16).foldl (fun ch lzn =>
      (List.range 16).foldl (fun ch lxn =>
        let world_x := origin.x + (lxn : ℤ)
        let world_z := origin.z + (lzn : ℤ)
        match (List.range 16).find? (fun lyn =>
            let world_y := chunk_y_min + (lyn : ℤ)
            decide (65 ≤ world_y ∧ world_y ≤ 100)
            && (ch.get (lxn : ℤ) (lyn : ℤ) (lzn : ℤ) == .Grass)
            && (ch.get (lxn : ℤ) ((lyn : ℤ) + 1) (lzn : ℤ) == .Air)) with
        | none => ch
        | some lyn =>
          let world_y := chunk_y_min + (lyn : ℤ)
          if g2 ws.detail_noise.seed ((world_x : ℚ) * (3/10)) ((world_z : ℚ) * (3/10)) > 22/25 then
            generate_tree_clipped ch (lxn : ℤ) (world_y + 1) (lzn : ℤ) .FloatingIslands
              chunk_y_min chunk_y_max
          else ch) ch) withSurfaceTrees
  else withSurfaceTrees

end TerrainGenerator

/-- Phase 1 of `generate_chunk_and_mesh_async` (mesh_gen.rs): a background
worker reconstructs the noise fields from the bare `u32` seed with
`WorldSeed::new`, builds a `TerrainGenerator` over them and generates the
chunk; the voxel array is what gets promoted into the world. -/
def generate_chunk_and_mesh_async_voxels (g2 : NoiseFn2) (g3 : NoiseFn3)
    (seed : ℕ) (chunk_pos : ChunkPos) : List VoxelKind :=
  (TerrainGenerator.generate_chunk g2 g3 (WorldSeed.new seed) chunk_pos).voxels

/-! ## General list / association-list helper lemmas -/

theorem getD_set_self {α : Type} (l : List α) (i : ℕ) (a d : α)
    (h : i < l.length) : (l.set i a).getD i d = a := by
  simp [List.getD, List.getElem?_set_self, h]

theorem getD_set_ne {α : Type} (l : List α) (i j : ℕ) (a d : α)
    (h : i ≠ j) : (l.set i a).getD j d = l.getD j d := by
  simp [List.getD, List.getElem?_set_ne h]

theorem alistUpdate_not_found (l : List (ChunkPos × ChunkData)) (k : ChunkPos)
    (f : ChunkData → ChunkData) (h : l.find? (fun p => p.1 = k) = none) :
    alistUpdate l k f = l := by
  induction l with
  | nil => rfl
  | cons hd tl ih =>
    rw [List.find?_cons] at h
    rcases hkd : (decide (hd.1 = k)) with _ | _
    · rw [hkd] at h
      unfold alistUpdate
      rw [if_neg (by simpa using hkd)]
      exact congrArg (hd :: ·) (ih h)
    · rw [hkd] at h; cases h

theorem alistFind_update_self (l : List (ChunkPos × ChunkData)) (k : ChunkPos)
    (f : ChunkData → ChunkData) (h : (l.find? (fun p => p.1 = k)).isSome) :
    alistFind (alistUpdate l k f) k = (alistFind l k).map f := by
  induction l with
  | nil => simp [alistFind] at h
  | cons hd tl ih =>
    by_cases hk : hd.1 = k
    · unfold alistUpdate
      rw [if_pos hk]
      simp [alistFind, List.find?_cons, hk]
    · unfold alistUpdate
      rw [if_neg hk]
      have h2 : (tl.find? (fun p => p.1 = k)).isSome := by
        simpa [List.find?_cons, hk] using h
      simpa [alistFind, List.find?_cons, hk] using ih h2

theorem alistFind_append_single (l : List (ChunkPos × ChunkData)) (k : ChunkPos)
    (v : ChunkData) (h : l.find? (fun p => p.1 = k) = none) :
    alistFind (l ++ [(k, v)]) k = some v := by
  induction l with
  | nil => simp [alistFind]
  | cons hd tl ih =>
    rw [List.find?_cons] at h
    rcases hkd : (decide (hd.1 = k)) with _ | _
    · rw [hkd] at h
      simp only [List.cons_append, alistFind, List.find?_cons, hkd]
      exact ih h
    · rw [hkd] at h; cases h

theorem alistFind_insert_self (l : List (ChunkPos × ChunkData)) (k : ChunkPos)
    (v : ChunkData) : alistFind (alistInsert l k v) k = some v := by
  unfold alistInsert
  by_cases h : (l.find? (fun p => p.1 = k)).isSome
  · rw [if_pos h, alistFind_update_self l k _ h]
    rcases Option.isSome_iff_exists.mp h with ⟨p, hp⟩
    simp [alistFind, hp]
  · rw [if_neg h]
    exact alistFind_append_single l k v (Option.not_isSome_iff_eq_none.mp h)

theorem alistFind_update_ne (l : List (ChunkPos × ChunkData)) (k2 : ChunkPos)
    (f : ChunkData → ChunkData) (k : ChunkPos) (h : k2 ≠ k) :
    alistFind (alistUpdate l k2 f) k = alistFind l k := by
  induction l with
  | nil => rfl
  | cons hd tl ih =>
    unfold alistUpdate
    by_cases hk2 : hd.1 = k2
    · rw [if_pos hk2]
      have hne : ¬ hd.1 = k := by rw [hk2]; exact h
      simp [alistFind, List.find?_cons, hne]
    · rw [if_neg hk2]
      by_cases hk : hd.1 = k
      · simp [alistFind, List.find?_cons, hk]
      · simpa [alistFind, List.find?_cons, hk] using ih

theorem alistFind_append_single_ne (l : List (ChunkPos × ChunkData))
    (k2 : ChunkPos) (v : ChunkData) (k : ChunkPos) (h : k2 ≠ k) :
    alistFind (l ++ [(k2, v)]) k = alistFind l k := by
  induction l with
  | nil => simp [alistFind, List.find?, h]
  | cons hd tl ih =>
    by_cases hk : hd.1 = k
    · simp [alistFind, List.find?_cons, hk]
    · simpa [alistFind, List.find?_cons, hk] using ih

theorem alistFind_insert_ne (l : List (ChunkPos × ChunkData)) (k k2 : ChunkPos)
    (v : ChunkData) (h : k2 ≠ k) :
    alistFind (alistInsert l k2 v) k = alistFind l k := by
  unfold alistInsert
  by_cases hf : (l.find? (fun p => p.1 = k2)).isSome
  · rw [if_pos hf]
    exact alistFind_update_ne l k2 _ k h
  · rw [if_neg hf]
    exact alistFind_append_single_ne l k2 v k h

/-! ## C5: out-of-bounds reads and writes are total no-ops -/

/-- C5.  For every coordinate with a component outside `[0, CHUNK_SIZE)`,
`ChunkData::get` returns Air and `ChunkData::set` returns the chunk fully
unchanged (`is_dirty` included); for every world position whose owning chunk
is not resident, `VoxelWorld::get_voxel` returns Air and
`VoxelWorld::set_voxel` changes nothing.  All four operations are total
functions of the embedding — no panic path exists. -/
theorem out_of_bounds_accesses_are_noops :
    (∀ (c : ChunkData) (x y z : ℤ) (kind : VoxelKind),
      ¬ ChunkData.inBounds x y z →
      c.get x y z = .Air ∧ c.set x y z kind = c) ∧
    (∀ (w : VoxelWorld) (p : IVec3) (kind : VoxelKind),
      alistFind w.chunks (ChunkPos.from_world_pos p.x p.y p.z) = none →
      w.get_voxel p = .Air ∧ w.set_voxel p kind = w) := by
  constructor
  · intro c x y z kind h
    unfold ChunkData.inBounds at h
    push_neg at h
    have hcond : x < 0 ∨ x ≥ CHUNK_SIZE ∨ y < 0 ∨ y ≥ CHUNK_SIZE ∨ z < 0 ∨ z ≥ CHUNK_SIZE := by
      unfold CHUNK_SIZE at *; omega
    exact ⟨by unfold ChunkData.get; rw [if_pos hcond],
      by unfold ChunkData.set; rw [if_pos hcond]⟩
  · intro w p kind h
    have hfind : w.chunks.find? (fun q => q.1 = ChunkPos.from_world_pos p.x p.y p.z) = none := by
      unfold alistFind at h
      exact Option.map_eq_none'.mp h
    constructor
    · simp [VoxelWorld.get_voxel, h]
    · simp [VoxelWorld.set_voxel, alistUpdate_not_found _ _ _ hfind]

/-- Witness for C5 at concrete inputs: local coordinate (16,0,0) is outside
the cube, and the empty world owns no chunk at the origin. -/
theorem out_of_bounds_accesses_are_noops_witness :
    (ChunkData.new.get 16 0 0 = .Air ∧ ChunkData.new.set 16 0 0 .Stone = ChunkData.new) ∧
    ((VoxelWorld.mk [] []).get_voxel ⟨0, 0, 0⟩ = .Air ∧
      (VoxelWorld.mk [] []).set_voxel ⟨0, 0, 0⟩ .Stone = VoxelWorld.mk [] []) :=
  ⟨out_of_bounds_accesses_are_noops.1 ChunkData.new 16 0 0 .Stone
      (by unfold ChunkData.inBounds CHUNK_SIZE; omega),
    out_of_bounds_accesses_are_noops.2 (VoxelWorld.mk [] []) ⟨0, 0, 0⟩ .Stone rfl⟩

/-! ## C6: chunk coordinate round trip -/

/-- C6.  For every integer world position (negative components included), the
owning chunk's world origin is componentwise ≤ the position, and the offset
from that origin lies in `[0, CHUNK_SIZE)` in every component. -/
theorem from_world_pos_origin_bounds (px py pz : ℤ) :
    ((ChunkPos.world_origin (ChunkPos.from_world_pos px py pz)).x ≤ px ∧
     (ChunkPos.world_origin (ChunkPos.from_world_pos px py pz)).y ≤ py ∧
     (ChunkPos.world_origin (ChunkPos.from_world_pos px py pz)).z ≤ pz) ∧
    0 ≤ px - (ChunkPos.world_origin (ChunkPos.from_world_pos px py pz)).x ∧
    px - (ChunkPos.world_origin (ChunkPos.from_world_pos px py pz)).x < CHUNK_SIZE ∧
    0 ≤ py - (ChunkPos.world_origin (ChunkPos.from_world_pos px py pz)).y ∧
    py - (ChunkPos.world_origin (ChunkPos.from_world_pos px py pz)).y < CHUNK_SIZE ∧
    0 ≤ pz - (ChunkPos.world_origin (ChunkPos.from_world_pos px py pz)).z ∧
    pz - (ChunkPos.world_origin (ChunkPos.from_world_pos px py pz)).z < CHUNK_SIZE := by
  simp only [ChunkPos.from_world_pos, ChunkPos.world_origin, CHUNK_SIZE,
    show ∀ a : ℤ, Int.ediv a 16 = a / 16 from fun _ => rfl]
  constructor
  · omega
  · omega

/-! ## C7: terrain generation is a pure function of seed and position -/

/-- C7.  Two background-worker invocations that reconstruct the noise fields
from equal seeds and generate equal chunk positions produce identical voxel
arrays: the whole pipeline (`WorldSeed::new` → `TerrainGenerator::generate_chunk`)
is a pure function of (seed, position) and the (seed-determined) noise
evaluators, with no other input. -/
theorem generate_chunk_deterministic (g2 : NoiseFn2) (g3 : NoiseFn3)
    (s1 s2 : ℕ) (p1 p2 : ChunkPos) (hs : s1 = s2) (hp : p1 = p2) :
    generate_chunk_and_mesh_async_voxels g2 g3 s1 p1 =
      generate_chunk_and_mesh_async_voxels g2 g3 s2 p2 := by
  rw [hs, hp]

/-- Witness for C7: two runs at seed 12345, chunk (0,0,0), over the constant-
zero noise fields. -/
theorem generate_chunk_deterministic_witness :
    generate_chunk_and_mesh_async_voxels (fun _ _ _ => 0) (fun _ _ _ _ => 0) 12345 ⟨0, 0, 0⟩ =
      generate_chunk_and_mesh_async_voxels (fun _ _ _ => 0) (fun _ _ _ _ => 0) 12345 ⟨0, 0, 0⟩ :=
  generate_chunk_deterministic (fun _ _ _ => 0) (fun _ _ _ _ => 0) 12345 12345 ⟨0, 0, 0⟩ ⟨0, 0, 0⟩ rfl rfl

/-! ## C10: batch apply promotes a fresh chunk -/

/-- C10.  When the batch-apply drain promotes a completed generation result,
the `ChunkData` resident afterwards carries exactly the generated voxels and
every other field at its reset value: `is_dirty` false, all flags NONE, all
variants 0, no thermal state, all active sets empty, empty dirty list and
change log, `needs_remesh` false — regardless of the previous resident chunk
at that coordinate and of the other drained results (none of which target the
same coordinate after it). -/
theorem batch_apply_inserts_fresh_chunk (w : VoxelWorld)
    (pre post : List CompletedChunk) (comp : CompletedChunk)
    (hpost : ∀ c2 ∈ post, c2.chunk_pos ≠ comp.chunk_pos) :
    ∃ c : ChunkData,
      alistFind (applyChunkReplacements w (pre ++ comp :: post)).chunks comp.chunk_pos = some c ∧
      c.voxels = comp.voxels ∧
      c.is_dirty = false ∧
      c.flags = List.replicate ChunkData.VOXEL_COUNT VoxelFlags.NONE ∧
      c.variant = List.replicate ChunkData.VOXEL_COUNT 0 ∧
      c.thermal_state = none ∧
      c.active_thermal = (fun _ => false) ∧
      c.active_burning = (fun _ => false) ∧
      c.active_freezing = (fun _ => false) ∧
      c.active_melting = (fun _ => false) ∧
      c.dirty_blocks = [] ∧
      c.needs_remesh = false ∧
      c.changes = [] := by
  refine ⟨{ ChunkData.new with voxels := comp.voxels, is_dirty := false }, ?_,
    rfl, rfl, rfl, rfl, rfl, rfl, rfl, rfl, rfl, rfl, rfl, rfl⟩
  unfold applyChunkReplacements
  rw [List.foldl_append]
  generalize (List.foldl applyCompleted w pre) = w1
  rw [List.foldl_cons]
  generalize hmid : applyCompleted w1 comp = w2
  have hmidfind : alistFind w2.chunks comp.chunk_pos =
      some { ChunkData.new with voxels := comp.voxels, is_dirty := false } := by
    rw [← hmid]
    unfold applyCompleted
    exact alistFind_insert_self _ _ _
  clear hmid
  induction post generalizing w2 with
  | nil => simpa using hmidfind
  | cons hd tl ih =>
    rw [List.foldl_cons]
    refine ih (fun c2 hc2 => hpost c2 (List.mem_cons_of_mem hd hc2)) _ ?_
    unfold applyCompleted
    rw [alistFind_insert_ne _ _ _ _ (hpost hd (List.mem_cons_self hd tl))]
    exact hmidfind

/-- Witness for C10: a single-element buffer applied to the empty world. -/
theorem batch_apply_inserts_fresh_chunk_witness :
    ∃ c : ChunkData,
      alistFind (applyChunkReplacements (VoxelWorld.mk [] [])
          [CompletedChunk.mk ⟨1, 2, 3⟩ [.Stone, .Water] true]).chunks ⟨1, 2, 3⟩ = some c ∧
      c.voxels = [.Stone, .Water] ∧
      c.is_dirty = false ∧
      c.flags = List.replicate ChunkData.VOXEL_COUNT VoxelFlags.NONE ∧
      c.variant = List.replicate ChunkData.VOXEL_COUNT 0 ∧
      c.thermal_state = none ∧
      c.active_thermal = (fun _ => false) ∧
      c.active_burning = (fun _ => false) ∧
      c.active_freezing = (fun _ => false) ∧
      c.active_melting = (fun _ => false) ∧
      c.dirty_blocks = [] ∧
      c.needs_remesh = false ∧
      c.changes = [] :=
  batch_apply_inserts_fresh_chunk (VoxelWorld.mk [] []) [] []
    (CompletedChunk.mk ⟨1, 2, 3⟩ [.Stone, .Water] true) (by intro c2 hc2; cases hc2)

/-! ## Thermal API lemmas -/

/-- The sparse thermal override stored for cell `i`, if any. -/
def overrideAt (c : ChunkData) (i : ℕ) : Option ℚ :=
  match c.thermal_state with
  | none => none
  | some thermal => thermal.temp_overrides i

/-- The kind default temperature `chunk.voxels[idx].def().props.temperature`. -/
def defaultTempAt (c : ChunkData) (i : ℕ) : ℚ :=
  (c.voxels.getD i .Air).props.temperature

theorem get_temp_eq_override (c : ChunkData) (i : ℕ) (t : ℚ)
    (h : overrideAt c i = some t) : ThermalApi.get_temp c i = t := by
  unfold overrideAt at h
  unfold ThermalApi.get_temp
  rcases hts : c.thermal_state with _ | th
  · rw [hts] at h; cases h
  · rw [hts] at h
    dsimp only at h ⊢
    rw [h]

theorem get_temp_eq_default (c : ChunkData) (i : ℕ)
    (h : overrideAt c i = none) : ThermalApi.get_temp c i = defaultTempAt c i := by
  unfold overrideAt at h
  unfold ThermalApi.get_temp defaultTempAt
  rcases hts : c.thermal_state with _ | th
  · rfl
  · rw [hts] at h
    dsimp only at h ⊢
    rw [h]

theorem update_temp_flags_thermal_state (c : ChunkData) (i : ℕ) (t : ℚ) :
    (ThermalApi.update_temp_flags c i t).thermal_state = c.thermal_state := by
  unfold ThermalApi.update_temp_flags
  dsimp only
  split_ifs <;> rfl

theorem update_temp_flags_voxels (c : ChunkData) (i : ℕ) (t : ℚ) :
    (ThermalApi.update_temp_flags c i t).voxels = c.voxels := by
  unfold ThermalApi.update_temp_flags
  dsimp only
  split_ifs <;> rfl

theorem update_temp_flags_active_thermal (c : ChunkData) (i : ℕ) (t : ℚ) :
    (ThermalApi.update_temp_flags c i t).active_thermal = c.active_thermal := by
  unfold ThermalApi.update_temp_flags
  dsimp only
  split_ifs <;> rfl

/-- After `set_temp`, the override at the written cell is gone when the value
is within epsilon of the kind default, and is the value otherwise. -/
theorem set_temp_override_self (c : ChunkData) (i : ℕ) (v : ℚ) :
    overrideAt (ThermalApi.set_temp c i v) i =
      if |v - defaultTempAt c i| < TEMP_EPSILON then none else some v := by
  unfold ThermalApi.set_temp
  dsimp only
  unfold overrideAt defaultTempAt
  rw [update_temp_flags_thermal_state]
  split_ifs with h
  · simp
  · simp

/-- `set_temp` with a value at least epsilon from default marks the cell
thermally active. -/
theorem set_temp_active_self (c : ChunkData) (i : ℕ) (v : ℚ)
    (h : TEMP_EPSILON ≤ |v - defaultTempAt c i|) :
    (ThermalApi.set_temp c i v).active_thermal i = true := by
  unfold ThermalApi.set_temp
  dsimp only
  rw [update_temp_flags_active_thermal]
  unfold defaultTempAt at h
  rw [if_neg (not_lt.mpr h)]
  simp

/-- `set_temp` keeps the voxel array, so the default temperature at the cell
is unchanged. -/
theorem set_temp_voxels (c : ChunkData) (i : ℕ) (v : ℚ) :
    (ThermalApi.set_temp c i v).voxels = c.voxels := by
  unfold ThermalApi.set_temp
  dsimp only
  rw [update_temp_flags_voxels]
  split_ifs <;> rfl

/-- Reading back the cell written by `set_temp`: the kind default if the
value was pruned, the value itself otherwise. -/
theorem get_temp_set_temp_self (c : ChunkData) (i : ℕ) (v : ℚ) :
    ThermalApi.get_temp (ThermalApi.set_temp c i v) i =
      if |v - defaultTempAt c i| < TEMP_EPSILON then defaultTempAt c i else v := by
  have ho := set_temp_override_self c i v
  split_ifs with h
  · rw [if_pos h] at ho
    rw [get_temp_eq_default _ _ ho]
    unfold defaultTempAt
    rw [set_temp_voxels]
  · rw [if_neg h] at ho
    exact get_temp_eq_override _ _ _ ho

/-! ## C3: get_temp / set_temp invariants -/

/-- C3.  `get_temp` returns the sparse override when present and the kind
default otherwise; `set_temp` with a value within epsilon (0.1) of the kind
default removes any override at the cell, and with a value at least epsilon
away inserts the override and adds the cell to the active-thermal set. -/
theorem thermal_get_set_invariants (c : ChunkData) (idx : ℕ)
    (hidx : idx < c.voxels.length) :
    ((∀ t, overrideAt c idx = some t → ThermalApi.get_temp c idx = t) ∧
     (overrideAt c idx = none → ThermalApi.get_temp c idx = defaultTempAt c idx)) ∧
    (∀ temp : ℚ,
      (|temp - defaultTempAt c idx| < TEMP_EPSILON →
        overrideAt (ThermalApi.set_temp c idx temp) idx = none) ∧
      (TEMP_EPSILON ≤ |temp - defaultTempAt c idx| →
        overrideAt (ThermalApi.set_temp c idx temp) idx = some temp ∧
        (ThermalApi.set_temp c idx temp).active_thermal idx = true)) := by
  refine ⟨⟨fun t ht => get_temp_eq_override c idx t ht,
    fun hn => get_temp_eq_default c idx hn⟩, fun temp => ⟨fun hlt => ?_, fun hge => ?_⟩⟩
  · rw [set_temp_override_self, if_pos hlt]
  · exact ⟨by rw [set_temp_override_self, if_neg (not_lt.mpr hge)],
      set_temp_active_self c idx temp hge⟩

/-- A one-cell Stone chunk with no thermal state, for concrete evaluation. -/
def stoneChunk : ChunkData :=
  ⟨[.Stone], true, [VoxelFlags.NONE], [0], none,
    fun _ => false, fun _ => false, fun _ => false, fun _ => false, [], false, []⟩

/-- Witness for C3 on the one-cell Stone chunk (default temperature 12):
writing 12.05 (within epsilon) leaves no override, writing 50 installs the
override and activates the cell. -/
theorem thermal_get_set_invariants_witness :
    (overrideAt (ThermalApi.set_temp stoneChunk 0 (241/20)) 0 = none) ∧
    (overrideAt (ThermalApi.set_temp stoneChunk 0 50) 0 = some 50 ∧
      (ThermalApi.set_temp stoneChunk 0 50).active_thermal 0 = true) :=
  ⟨((thermal_get_set_invariants stoneChunk 0 (by simp [stoneChunk])).2 (241/20)).1
      (by
        rw [show defaultTempAt stoneChunk 0 = 12 by
          simp [defaultTempAt, stoneChunk, VoxelKind.props]]
        rw [show |(241:ℚ)/20 - 12| = 1/20 by rw [abs_of_pos] <;> norm_num]
        norm_num [TEMP_EPSILON]),
    ((thermal_get_set_invariants stoneChunk 0 (by simp [stoneChunk])).2 50).2
      (by
        rw [show defaultTempAt stoneChunk 0 = 12 by
          simp [defaultTempAt, stoneChunk, VoxelKind.props]]
        rw [show |(50:ℚ) - 12| = 38 by rw [abs_of_pos] <;> norm_num]
        norm_num [TEMP_EPSILON])⟩

/-! ## C4: add_heat behaviour -/

/-- Every kind in the catalog has a strictly positive heat capacity, so the
`heat_capacity <= 0` guard of `add_heat` can never fire on a real cell. -/
theorem heat_capacity_pos (k : VoxelKind) : 0 < k.props.heat_capacity := by
  cases k <;> norm_num [VoxelKind.props]

/-- C4 (amended).  The division guard of `add_heat` is unreachable because
every catalog kind's heat capacity is positive, so `add_heat` always
delegates to `set_temp` with `v = get_temp + heat / heat_capacity`.  The
effective temperature read back afterwards is `v`, unless `v` lies within
`TEMP_EPSILON` of the kind's default, in which case it is exactly the
default.  Consequently, for positive heat the effective temperature
strictly increases **iff** `v` is at least epsilon from the default or the
current effective temperature is below the default; when `v` is pruned the
cell reads the default — unchanged if it already did, strictly *lower* if a
stored override sat above the default.  This holds for every chunk state,
with no well-formedness assumption on existing overrides. -/
theorem add_heat_effective_temperature :
    (∀ k : VoxelKind, 0 < k.props.heat_capacity) ∧
    (∀ (c : ChunkData) (i : ℕ) (heat : ℚ),
      ThermalApi.get_temp (ThermalApi.add_heat c i heat) i =
        if |ThermalApi.get_temp c i + heat / (c.voxels.getD i .Air).props.heat_capacity
            - defaultTempAt c i| < TEMP_EPSILON
        then defaultTempAt c i
        else ThermalApi.get_temp c i + heat / (c.voxels.getD i .Air).props.heat_capacity) ∧
    (∀ (c : ChunkData) (i : ℕ) (heat : ℚ), 0 < heat →
      (ThermalApi.get_temp c i < ThermalApi.get_temp (ThermalApi.add_heat c i heat) i ↔
        TEMP_EPSILON ≤ |ThermalApi.get_temp c i
            + heat / (c.voxels.getD i .Air).props.heat_capacity - defaultTempAt c i|
        ∨ ThermalApi.get_temp c i < defaultTempAt c i)) := by
  have hreadback : ∀ (c : ChunkData) (i : ℕ) (heat : ℚ),
      ThermalApi.get_temp (ThermalApi.add_heat c i heat) i =
        if |ThermalApi.get_temp c i + heat / (c.voxels.getD i .Air).props.heat_capacity
            - defaultTempAt c i| < TEMP_EPSILON
        then defaultTempAt c i
        else ThermalApi.get_temp c i + heat / (c.voxels.getD i .Air).props.heat_capacity := by
    intro c i heat
    have hcap : 0 < (c.voxels.getD i .Air).props.heat_capacity := heat_capacity_pos _
    have hah : ThermalApi.add_heat c i heat =
        ThermalApi.set_temp c i
          (ThermalApi.get_temp c i + heat / (c.voxels.getD i .Air).props.heat_capacity) := by
      unfold ThermalApi.add_heat
      rw [if_neg (not_le.mpr hcap)]
    rw [hah, get_temp_set_temp_self]
  refine ⟨heat_capacity_pos, hreadback, fun c i heat hheat => ?_⟩
  have hcap : 0 < (c.voxels.getD i .Air).props.heat_capacity := heat_capacity_pos _
  have hdelta : 0 < heat / (c.voxels.getD i .Air).props.heat_capacity :=
    div_pos hheat hcap
  rw [hreadback c i heat]
  split_ifs with hprune
  · constructor
    · exact fun h => Or.inr h
    · rintro (h | h)
      · exact absurd hprune (not_lt.mpr h)
      · exact h
  · constructor
    · exact fun _ => Or.inl (not_lt.mp hprune)
    · exact fun _ => by linarith

/-- Witness for C4 (amended) on the one-cell Stone chunk (default 12 °C,
heat capacity 2000): with heat 1000, `v = 12.5` is at least epsilon from the
default, and the iff resolves to a strict increase. -/
theorem add_heat_effective_temperature_witness :
    (ThermalApi.get_temp stoneChunk 0 <
        ThermalApi.get_temp (ThermalApi.add_heat stoneChunk 0 1000) 0 ↔
      TEMP_EPSILON ≤ |ThermalApi.get_temp stoneChunk 0
          + 1000 / (stoneChunk.voxels.getD 0 .Air).props.heat_capacity
          - defaultTempAt stoneChunk 0|
      ∨ ThermalApi.get_temp stoneChunk 0 < defaultTempAt stoneChunk 0) :=
  add_heat_effective_temperature.2.2 stoneChunk 0 1000 (by norm_num)

/-- Counterexample to C4 as stated: on the one-cell Stone chunk, heat 100 is
positive and the heat capacity (2000) is positive, yet the effective
temperature does not strictly increase — `add_heat` computes 12.05, which
`set_temp` prunes as within epsilon of the default 12, so `get_temp` still
returns 12. -/
theorem add_heat_positive_not_strictly_increasing :
    0 < (100 : ℚ) ∧
    0 < (stoneChunk.voxels.getD 0 VoxelKind.Air).props.heat_capacity ∧
    ¬ ThermalApi.get_temp stoneChunk 0 <
        ThermalApi.get_temp (ThermalApi.add_heat stoneChunk 0 100) 0 := by
  have hd : defaultTempAt stoneChunk 0 = 12 := by
    simp [defaultTempAt, stoneChunk, VoxelKind.props]
  have h1 : ThermalApi.get_temp stoneChunk 0 = 12 := by
    rw [get_temp_eq_default _ _ (by simp [overrideAt, stoneChunk]), hd]
  have h2 : ThermalApi.add_heat stoneChunk 0 100 =
      ThermalApi.set_temp stoneChunk 0 (12 + 100 / 2000) := by
    unfold ThermalApi.add_heat
    rw [if_neg (by norm_num [stoneChunk, VoxelKind.props])]
    rw [h1]
    norm_num [stoneChunk, VoxelKind.props]
  refine ⟨by norm_num, by norm_num [stoneChunk, VoxelKind.props], ?_⟩
  rw [h1, h2, get_temp_set_temp_self, hd]
  rw [if_pos (by
    rw [show (12:ℚ) + 100/2000 - 12 = 1/20 by norm_num, abs_of_pos (by norm_num)]
    norm_num [TEMP_EPSILON])]
  exact lt_irrefl 12

/-! ## C9: the height formula -/

/-- `f64 as i32` truncation agrees with the floor on non-negative inputs. -/
theorem f64ToI32_eq_floor (q : ℚ) (h : 0 ≤ q) : f64ToI32 q = ⌊q⌋ := by
  rw [Rat.floor_def]
  exact Int.tdiv_eq_ediv (Rat.num_nonneg.mpr h) (by positivity)

/-- The height formula as the spec sentence words it: base elevation plus
three octaves of ONE noise field `f` at frequencies 1×, 2×, 4× and
amplitudes 12, 6, 3, clamped below at the valid minimum.  Compared against
the source's `get_height`, which draws its third octave from a different
field. -/
def get_height_spec_one_field (f : ℚ → ℚ → ℚ) (x z : ℤ) : ℤ :=
  let fx : ℚ := (x : ℚ) * (1/50)
  let fz : ℚ := (z : ℚ) * (1/50)
  let height : ℚ := f fx fz * 12 + f (fx * 2) (fz * 2) * 6 + f (fx * 4) (fz * 4) * 3
  max (f64ToI32 (32 + height)) 1

/-- Noise family separating the fields: the field with seed 0 is constant 1,
every other field is constant 0. -/
def heightDemoNoise : NoiseFn2 := fun s _ _ => if s = 0 then 1 else 0

/-- Counterexample to C9 as stated: with the seed-0 world, the terrain field
is constant 1 and the detail field (seed 4000) constant 0.  `get_height`
yields 32 + 12 + 6 + 0 = 50, while the one-field formula of the spec yields
53 over the terrain field and 32 over the detail field (and every other
field of this world is also constant 0, giving 32) — the source height is
not three octaves of any one of its noise fields. -/
theorem get_height_not_one_field :
    TerrainGenerator.get_height heightDemoNoise (WorldSeed.new 0) 0 0 = 50 ∧
    get_height_spec_one_field (heightDemoNoise 0) 0 0 = 53 ∧
    get_height_spec_one_field (heightDemoNoise 4000) 0 0 = 32 ∧
    (50 : ℤ) ≠ 53 ∧ (50 : ℤ) ≠ 32 := by
  refine ⟨?_, ?_, ?_, by norm_num, by norm_num⟩
  · norm_num [TerrainGenerator.get_height, heightDemoNoise, WorldSeed.new,
      f64ToI32]
  · norm_num [get_height_spec_one_field, heightDemoNoise, f64ToI32]
  · norm_num [get_height_spec_one_field, heightDemoNoise, f64ToI32]

/-- C9 (amended).  `get_height` is the base elevation 32 plus two octaves of
the terrain noise field (amplitudes 12, 6 at frequencies 1×, 2× of scale
0.02) plus one octave of the separate detail noise field (amplitude 3 at
4×), truncated to integer and clamped below at 1 (there is no upper clamp in
the source); the result is always at least 1, and lies in [11, 53] whenever
all noise values lie in [-1, 1]. -/
theorem get_height_formula_and_bounds (g2 : NoiseFn2) (ws : WorldSeed) (x z : ℤ) :
    TerrainGenerator.get_height g2 ws x z =
      max (f64ToI32 (32 +
        (g2 ws.terrain_noise.seed ((x : ℚ) * (1/50)) ((z : ℚ) * (1/50)) * 12
         + g2 ws.terrain_noise.seed ((x : ℚ) * (1/50) * 2) ((z : ℚ) * (1/50) * 2) * 6
         + g2 ws.detail_noise.seed ((x : ℚ) * (1/50) * 4) ((z : ℚ) * (1/50) * 4) * 3))) 1 ∧
    1 ≤ TerrainGenerator.get_height g2 ws x z ∧
    ((∀ s a b, |g2 s a b| ≤ 1) →
      11 ≤ TerrainGenerator.get_height g2 ws x z ∧
      TerrainGenerator.get_height g2 ws x z ≤ 53) := by
  refine ⟨rfl, le_max_right _ _, fun ha => ?_⟩
  set t1 := g2 ws.terrain_noise.seed ((x : ℚ) * (1/50)) ((z : ℚ) * (1/50)) with ht1
  set t2 := g2 ws.terrain_noise.seed ((x : ℚ) * (1/50) * 2) ((z : ℚ) * (1/50) * 2) with ht2
  set t3 := g2 ws.detail_noise.seed ((x : ℚ) * (1/50) * 4) ((z : ℚ) * (1/50) * 4) with ht3
  have h1 := abs_le.mp (ha ws.terrain_noise.seed ((x : ℚ) * (1/50)) ((z : ℚ) * (1/50)))
  have h2 := abs_le.mp (ha ws.terrain_noise.seed ((x : ℚ) * (1/50) * 2) ((z : ℚ) * (1/50) * 2))
  have h3 := abs_le.mp (ha ws.detail_noise.seed ((x : ℚ) * (1/50) * 4) ((z : ℚ) * (1/50) * 4))
  rw [← ht1] at h1
  rw [← ht2] at h2
  rw [← ht3] at h3
  have hq1 : (11 : ℚ) ≤ 32 + (t1 * 12 + t2 * 6 + t3 * 3) := by nlinarith [h1.1, h2.1, h3.1]
  have hq2 : 32 + (t1 * 12 + t2 * 6 + t3 * 3) ≤ (53 : ℚ) := by nlinarith [h1.2, h2.2, h3.2]
  have hfl : f64ToI32 (32 + (t1 * 12 + t2 * 6 + t3 * 3)) =
      ⌊32 + (t1 * 12 + t2 * 6 + t3 * 3)⌋ :=
    f64ToI32_eq_floor _ (by linarith)
  have hlo : (11 : ℤ) ≤ ⌊32 + (t1 * 12 + t2 * 6 + t3 * 3)⌋ :=
    Int.le_floor.mpr (by exact_mod_cast hq1)
  have hhi : ⌊32 + (t1 * 12 + t2 * 6 + t3 * 3)⌋ ≤ (53 : ℤ) := by
    have := (Int.floor_le (32 + (t1 * 12 + t2 * 6 + t3 * 3))).trans hq2
    exact_mod_cast this
  unfold TerrainGenerator.get_height
  dsimp only
  rw [← ht1, ← ht2, ← ht3, hfl]
  constructor
  · exact le_max_of_le_left hlo
  · exact max_le (by omega) (by omega)

/-- Witness for C9 (amended) at the constant-zero noise configuration. -/
theorem get_height_formula_and_bounds_witness :
    11 ≤ TerrainGenerator.get_height (fun _ _ _ => 0) (WorldSeed.new 0) 0 0 ∧
    TerrainGenerator.get_height (fun _ _ _ => 0) (WorldSeed.new 0) 0 0 ≤ 53 :=
  (get_height_formula_and_bounds (fun _ _ _ => 0) (WorldSeed.new 0) 0 0).2.2
    (fun s a b => by norm_num)

/-! ## C8: mesh face culling -/

/-- C8.  A (cell, direction) face is emitted by the mesh builder iff the cell
lies in the chunk volume, its kind is not Air, the resolved neighbor (looked
up intra-chunk, through the supplied boundary slice, or treated as Air
beyond the vertical world bounds) is transparent, and it is not the case
that both the cell and that neighbor are Water. -/
theorem mesh_face_emitted_iff (H : ℤ) (voxels : List VoxelKind)
    (edges : NeighborEdges) (x y z : ℤ) (dir : IVec3) :
    (⟨x, y, z⟩, dir) ∈ buildChunkFaces H voxels edges ↔
      (0 ≤ x ∧ x < CHUNK_SIZE ∧ 0 ≤ y ∧ y < H ∧ 0 ≤ z ∧ z < CHUNK_SIZE ∧
        dir ∈ directions ∧
        voxels.getD (ChunkData.index x y z) .Air ≠ .Air ∧
        (resolveNeighbor H voxels edges ⟨x, y, z⟩ dir).is_transparent = true ∧
        ¬(voxels.getD (ChunkData.index x y z) .Air = .Water ∧
          resolveNeighbor H voxels edges ⟨x, y, z⟩ dir = .Water)) := by
  unfold buildChunkFaces
  simp only [List.mem_flatMap, List.mem_range, CHUNK_SIZE]
  constructor
  · rintro ⟨yn, hyn, zn, hzn, xn, hxn, hmem⟩
    dsimp only at hmem
    by_cases hair : voxels.getD (ChunkData.index (xn : ℤ) (yn : ℤ) (zn : ℤ)) .Air = .Air
    · rw [if_pos hair] at hmem
      cases hmem
    · rw [if_neg hair] at hmem
      rcases List.mem_map.mp hmem with ⟨d, hd, heq⟩
      rcases List.mem_filter.mp hd with ⟨hdmem, hemit⟩
      have hx : x = (xn : ℤ) ∧ y = (yn : ℤ) ∧ z = (zn : ℤ) ∧ dir = d := by
        have := heq
        rw [Prod.ext_iff] at this
        rcases this with ⟨h1, h2⟩
        rw [IVec3.mk.injEq] at h1
        exact ⟨h1.1.symm, h1.2.1.symm, h1.2.2.symm, h2.symm⟩
      rcases hx with ⟨hx, hy, hz, hdir⟩
      subst hx; subst hy; subst hz; subst hdir
      unfold faceEmitted at hemit
      rw [Bool.and_eq_true, Bool.not_eq_true', Bool.and_eq_false_iff] at hemit
      refine ⟨by positivity, by exact_mod_cast hxn, by positivity, ?_, by positivity,
        by exact_mod_cast hzn, hdmem, hair, hemit.1, ?_⟩
      · have : (yn : ℤ) < H := by
          rcases le_or_lt H 0 with hH | hH
          · omega
          · calc (yn : ℤ) < H.toNat := by exact_mod_cast hyn
              _ = H := Int.toNat_of_nonneg hH.le
        exact this
      · rintro ⟨hk, hn⟩
        rcases hemit.2 with hb | hb
        · rw [hk] at hb; simp at hb
        · rw [hn] at hb; simp at hb
  · rintro ⟨hx0, hx, hy0, hy, hz0, hz, hdir, hair, htr, hww⟩
    refine ⟨y.toNat, ?_, z.toNat, ?_, x.toNat, ?_, ?_⟩
    · omega
    · omega
    · omega
    · have hcx : ((x.toNat : ℤ)) = x := Int.toNat_of_nonneg hx0
      have hcy : ((y.toNat : ℤ)) = y := Int.toNat_of_nonneg hy0
      have hcz : ((z.toNat : ℤ)) = z := Int.toNat_of_nonneg hz0
      dsimp only
      rw [hcx, hcy, hcz, if_neg hair]
      refine List.mem_map.mpr ⟨dir, List.mem_filter.mpr ⟨hdir, ?_⟩, rfl⟩
      unfold faceEmitted
      rw [Bool.and_eq_true, Bool.not_eq_true', Bool.and_eq_false_iff]
      refine ⟨htr, ?_⟩
      by_cases hk : voxels.getD (ChunkData.index x y z) .Air = .Water
      · right
        have hn : ¬ resolveNeighbor H voxels edges ⟨x, y, z⟩ dir = .Water :=
          fun hn => hww ⟨hk, hn⟩
        simpa using hn
      · left
        simpa using hk

/-! ## Commit-stage machinery: the observable per-cell state -/

/-- The observable state of one cell: voxel kind, flag bits, variant,
thermal override, and membership in each active set. -/
structure CellView where
  voxel : VoxelKind
  flag : VoxelFlags
  variantVal : ℕ
  override : Option ℚ
  aT : Bool
  aB : Bool
  aF : Bool
  aM : Bool
  deriving DecidableEq, Repr

/-- Project the observable state of cell `i` out of a chunk. -/
def cellView (c : ChunkData) (i : ℕ) : CellView :=
  ⟨c.voxels.getD i .Air, c.flags.getD i 0, c.variant.getD i 0, overrideAt c i,
    c.active_thermal i, c.active_burning i, c.active_freezing i, c.active_melting i⟩

theorem cellView_update_temp_flags_ne (c : ChunkData) (j : ℕ) (t : ℚ) (i : ℕ)
    (h : j ≠ i) :
    cellView (ThermalApi.update_temp_flags c j t) i = cellView c i := by
  unfold ThermalApi.update_temp_flags
  dsimp only
  split_ifs <;> simp [cellView, overrideAt, getD_set_ne, h]

theorem update_temp_flags_variant (c : ChunkData) (j : ℕ) (t : ℚ) :
    (ThermalApi.update_temp_flags c j t).variant = c.variant := by
  unfold ThermalApi.update_temp_flags
  dsimp only
  split_ifs <;> rfl

theorem update_temp_flags_flags_length (c : ChunkData) (j : ℕ) (t : ℚ) :
    (ThermalApi.update_temp_flags c j t).flags.length = c.flags.length := by
  unfold ThermalApi.update_temp_flags
  dsimp only
  split_ifs <;> simp [List.length_set]

theorem cellView_set_temp_ne (c : ChunkData) (j : ℕ) (v : ℚ) (i : ℕ)
    (h : j ≠ i) :
    cellView (ThermalApi.set_temp c j v) i = cellView c i := by
  unfold ThermalApi.set_temp
  dsimp only
  have hstep : ∀ c2 : ChunkData, cellView
      { c2 with changes := c2.changes ++ [BlockChange.SetTemp j v],
                dirty_blocks := c2.dirty_blocks ++ [j] } i = cellView c2 i :=
    fun c2 => rfl
  rw [hstep, cellView_update_temp_flags_ne _ _ _ _ h]
  split_ifs with hcond
  · rcases hts : c.thermal_state with _ | th <;>
      simp [cellView, overrideAt, hts, ThermalState.default, Ne.symm h]
  · rcases hts : c.thermal_state with _ | th <;>
      simp [cellView, overrideAt, hts, ThermalState.default, Ne.symm h]

theorem cellView_add_heat_ne (c : ChunkData) (j : ℕ) (heat : ℚ) (i : ℕ)
    (h : j ≠ i) :
    cellView (ThermalApi.add_heat c j heat) i = cellView c i := by
  unfold ThermalApi.add_heat
  dsimp only
  split_ifs
  · rfl
  · exact cellView_set_temp_ne c j _ i h

theorem set_temp_variant (c : ChunkData) (j : ℕ) (v : ℚ) :
    (ThermalApi.set_temp c j v).variant = c.variant := by
  unfold ThermalApi.set_temp
  dsimp only
  rw [update_temp_flags_variant]
  split_ifs <;> rfl

theorem set_temp_flags_length (c : ChunkData) (j : ℕ) (v : ℚ) :
    (ThermalApi.set_temp c j v).flags.length = c.flags.length := by
  unfold ThermalApi.set_temp
  dsimp only
  rw [update_temp_flags_flags_length]
  split_ifs <;> rfl

theorem add_heat_voxels (c : ChunkData) (j : ℕ) (heat : ℚ) :
    (ThermalApi.add_heat c j heat).voxels = c.voxels := by
  unfold ThermalApi.add_heat
  dsimp only
  split_ifs
  · rfl
  · exact set_temp_voxels _ _ _

/-- A command targeting a different cell leaves the cell's observable state
untouched. -/
theorem cellView_execute_ne (c : ChunkData) (cmd : DomainCommand) (i : ℕ)
    (h : cmd.idx ≠ i) :
    cellView (execute_command c cmd) i = cellView c i := by
  cases cmd with
  | SetBlock j k =>
    have hj : j ≠ i := h
    simp only [execute_command]
    split_ifs <;> simp [cellView, overrideAt, getD_set_ne, hj]
  | AddFlag j f =>
    have hj : j ≠ i := h
    simp only [execute_command]
    split_ifs <;> simp [cellView, overrideAt, getD_set_ne, hj]
  | RemoveFlag j f =>
    have hj : j ≠ i := h
    simp only [execute_command]
    split_ifs <;> simp [cellView, overrideAt, getD_set_ne, hj]
  | SetVariant j v =>
    have hj : j ≠ i := h
    simp only [execute_command]
    split_ifs <;> simp [cellView, overrideAt, getD_set_ne, hj]
  | IncrementVariant j =>
    have hj : j ≠ i := h
    simp only [execute_command]
    split_ifs <;> simp [cellView, overrideAt, getD_set_ne, hj]
  | DecrementVariant j =>
    have hj : j ≠ i := h
    simp only [execute_command]
    split_ifs <;> simp [cellView, overrideAt, getD_set_ne, hj]
  | SetTemp j v =>
    have hj : j ≠ i := h
    simp only [execute_command]
    split_ifs with hg
    · exact cellView_set_temp_ne c j v i hj
    · rfl
  | AddHeat j heat =>
    have hj : j ≠ i := h
    simp only [execute_command]
    split_ifs with hg
    · exact cellView_add_heat_ne c j heat i hj
    · rfl
  | SetMoisture j m =>
    simp only [execute_command]
    split_ifs <;> rfl
  | AddMoisture j d => rfl
  | Ignite j p =>
    have hj : j ≠ i := h
    simp only [execute_command]
    split_ifs <;> simp [cellView, overrideAt, getD_set_ne, Ne.symm hj, hj]
  | Extinguish j =>
    have hj : j ≠ i := h
    simp only [execute_command]
    split_ifs <;> simp [cellView, overrideAt, getD_set_ne, Ne.symm hj, hj]

/-- `execute_command` never changes the voxel array length. -/
theorem execute_voxels_length (c : ChunkData) (cmd : DomainCommand) :
    (execute_command c cmd).voxels.length = c.voxels.length := by
  cases cmd <;> unfold execute_command <;> dsimp only <;> split_ifs <;>
    simp [List.length_set, set_temp_voxels, add_heat_voxels]

/-- Reading back a `SetBlock` through the observable view: the voxel becomes
the new kind when in bounds, everything else at the cell is unchanged. -/
theorem cellView_execute_setBlock (c : ChunkData) (i : ℕ) (k : VoxelKind) :
    cellView (execute_command c (.SetBlock i k)) i =
      if i < c.voxels.length then { cellView c i with voxel := k }
      else cellView c i := by
  simp only [execute_command]
  split_ifs with hlt
  · simp [cellView, overrideAt, List.getElem?_set_self, hlt]
  · rfl

theorem execList_cons (c : ChunkData) (hd : DomainCommand) (t : List DomainCommand) :
    execList c (hd :: t) = execList (execute_command c hd) t := rfl

theorem execList_frame (i : ℕ) (l : List DomainCommand) (c : ChunkData)
    (h : ∀ cmd ∈ l, cmd.idx ≠ i) :
    cellView (execList c l) i = cellView c i := by
  induction l generalizing c with
  | nil => rfl
  | cons hd t ih =>
    rw [execList_cons, ih _ (fun cmd hc => h cmd (List.mem_cons_of_mem hd hc)),
      cellView_execute_ne c hd i (h hd (List.mem_cons_self hd t))]

theorem execList_voxels_length (l : List DomainCommand) (c : ChunkData) :
    (execList c l).voxels.length = c.voxels.length := by
  induction l generalizing c with
  | nil => rfl
  | cons hd t ih => rw [execList_cons, ih, execute_voxels_length]

/-- If the only command in `l` targeting cell `i` is one `SetBlock`, running
the whole list leaves cell `i` exactly as running that `SetBlock` alone. -/
theorem execList_single_setBlock (i : ℕ) (k : VoxelKind)
    (l : List DomainCommand) (c : ChunkData)
    (h : l.filter (fun cmd => cmd.idx = i) = [.SetBlock i k]) :
    cellView (execList c l) i = cellView (execute_command c (.SetBlock i k)) i := by
  induction l generalizing c with
  | nil => cases h
  | cons hd t ih =>
    rw [List.filter_cons] at h
    by_cases hh : hd.idx = i
    · rw [if_pos (by simpa using hh)] at h
      rcases List.cons_eq_cons.mp h with ⟨hhd, ht⟩
      subst hhd
      rw [execList_cons]
      exact execList_frame i t _ (fun cmd hc =>
        by simpa using List.filter_eq_nil_iff.mp ht cmd hc)
    · rw [if_neg (by simpa using hh)] at h
      rw [execList_cons, ih _ h, cellView_execute_setBlock,
        cellView_execute_setBlock, execute_voxels_length,
        cellView_execute_ne c hd i hh]

/-! ## Conflict-resolution structure of `resolve_conflicts` -/

theorem mem_cmdsFor (cmds : List DomainCommand) (i : ℕ) (cmd : DomainCommand)
    (h : cmd ∈ cmdsFor cmds i) : cmd.idx = i := by
  unfold cmdsFor at h
  simpa using (List.mem_filter.mp h).2

theorem resolveGroup_subset (cmds : List DomainCommand) (i : ℕ)
    (cmd : DomainCommand) (h : cmd ∈ resolveGroup cmds i) :
    cmd ∈ cmdsFor cmds i := by
  unfold resolveGroup at h
  rcases hf : (cmdsFor cmds i).find? DomainCommand.isSetBlock with _ | sb
  · rw [hf] at h; exact h
  · rw [hf] at h
    rcases List.mem_singleton.mp h with rfl
    exact List.mem_of_find?_eq_some hf

theorem resolveGroup_filter_ne (cmds : List DomainCommand) (j i : ℕ)
    (h : j ≠ i) :
    (resolveGroup cmds j).filter (fun cmd => cmd.idx = i) = [] := by
  rw [List.filter_eq_nil_iff]
  intro cmd hc
  have := mem_cmdsFor cmds j cmd (resolveGroup_subset cmds j cmd hc)
  simp [this, h]

theorem resolveGroup_filter_self (cmds : List DomainCommand) (i : ℕ) :
    (resolveGroup cmds i).filter (fun cmd => cmd.idx = i) = resolveGroup cmds i := by
  rw [List.filter_eq_self]
  intro cmd hc
  simpa using mem_cmdsFor cmds i cmd (resolveGroup_subset cmds i cmd hc)

theorem flatMap_filter_single (i : ℕ) (F : ℕ → List DomainCommand)
    (hne : ∀ j, j ≠ i → (F j).filter (fun cmd => cmd.idx = i) = [])
    (hself : (F i).filter (fun cmd => cmd.idx = i) = F i)
    (ks : List ℕ) (hnd : ks.Nodup) :
    (ks.flatMap F).filter (fun cmd => cmd.idx = i) = if i ∈ ks then F i else [] := by
  induction ks with
  | nil => simp
  | cons a t ih =>
    rw [List.flatMap_cons, List.filter_append, ih (List.nodup_cons.mp hnd).2]
    by_cases ha : a = i
    · subst ha
      have hnt : a ∉ t := (List.nodup_cons.mp hnd).1
      simp [hself, hnt]
    · rw [hne a ha]
      simp [List.mem_cons, Ne.symm ha]

theorem not_mem_keys_no_cmds (cmds : List DomainCommand) (i : ℕ)
    (h : i ∉ keysOf cmds) : cmdsFor cmds i = [] := by
  unfold cmdsFor
  rw [List.filter_eq_nil_iff]
  intro cmd hc hidx
  apply h
  unfold keysOf
  rw [List.mem_dedup, List.mem_map]
  exact ⟨cmd, hc, by simpa using hidx⟩

/-- The commands of the resolved list targeting cell `i` are exactly the
resolution of cell `i`'s own group — the per-cell content is independent of
the (unspecified) HashMap group order. -/
theorem resolve_conflicts_filter (cmds : List DomainCommand) (i : ℕ) :
    (resolve_conflicts cmds).filter (fun cmd => cmd.idx = i) =
      resolveGroup cmds i := by
  unfold resolve_conflicts
  rw [flatMap_filter_single i (resolveGroup cmds)
    (fun j hj => resolveGroup_filter_ne cmds j i hj) (resolveGroup_filter_self cmds i)
    (keysOf cmds) (List.nodup_dedup _)]
  by_cases hm : i ∈ keysOf cmds
  · rw [if_pos hm]
  · rw [if_neg hm]
    have hempty := not_mem_keys_no_cmds cmds i hm
    unfold resolveGroup
    rw [hempty]
    rfl

/-! ## C1: Commit conflict resolution -/

/-- C1.  Per cell, `resolve_conflicts` keeps only the first `SetBlock` of a
contested cell's group (every other command for that cell is discarded), and
keeps a `SetBlock`-free cell's commands in encounter order; consequently,
executing the whole resolved list leaves a contested cell's observable state
exactly as executing that first `SetBlock` alone would. -/
theorem commit_conflict_resolution (cmds : List DomainCommand) (i : ℕ) :
    (∀ new_voxel : VoxelKind,
      (cmdsFor cmds i).find? DomainCommand.isSetBlock = some (.SetBlock i new_voxel) →
      (resolve_conflicts cmds).filter (fun cmd => cmd.idx = i) = [.SetBlock i new_voxel] ∧
      ∀ c : ChunkData,
        cellView (execList c (resolve_conflicts cmds)) i =
          cellView (execute_command c (.SetBlock i new_voxel)) i) ∧
    ((cmdsFor cmds i).find? DomainCommand.isSetBlock = none →
      (resolve_conflicts cmds).filter (fun cmd => cmd.idx = i) = cmdsFor cmds i) := by
  constructor
  · intro new_voxel hfind
    have hres : (resolve_conflicts cmds).filter (fun cmd => cmd.idx = i) =
        [.SetBlock i new_voxel] := by
      rw [resolve_conflicts_filter]
      unfold resolveGroup
      rw [hfind]
    exact ⟨hres, fun c => execList_single_setBlock i new_voxel _ c hres⟩
  · intro hfind
    rw [resolve_conflicts_filter]
    unfold resolveGroup
    rw [hfind]

/-- A demonstration command list: a contested cell 0 (flag write, two
set-blocks) and an uncontested cell 1 (one temperature write). -/
def demoCmds : List DomainCommand :=
  [.AddFlag 0 VoxelFlags.BURNING, .SetBlock 0 .Stone, .SetBlock 0 .Dirt,
    .SetTemp 1 50]

/-- Witness for C1 on `demoCmds`: cell 0 resolves to its first `SetBlock`
alone (and commits like it), cell 1 keeps its commands in encounter order. -/
theorem commit_conflict_resolution_witness :
    ((resolve_conflicts demoCmds).filter (fun cmd => cmd.idx = 0) =
        [.SetBlock 0 .Stone] ∧
      ∀ c : ChunkData,
        cellView (execList c (resolve_conflicts demoCmds)) 0 =
          cellView (execute_command c (.SetBlock 0 .Stone)) 0) ∧
    (resolve_conflicts demoCmds).filter (fun cmd => cmd.idx = 1) =
      cmdsFor demoCmds 1 :=
  ⟨(commit_conflict_resolution demoCmds 0).1 .Stone (by rfl),
    (commit_conflict_resolution demoCmds 1).2 (by rfl)⟩

/-! ## C2: Commit applies every resolved command to every resident chunk -/

theorem resolve_conflicts_single_setBlock (i : ℕ) (k : VoxelKind) :
    resolve_conflicts [DomainCommand.SetBlock i k] = [.SetBlock i k] := by
  simp [resolve_conflicts, keysOf, DomainCommand.idx, cmdsFor, resolveGroup,
    List.find?, DomainCommand.isSetBlock]

/-- C2.  `CommandQueue::push` discards the chunk position it is given, and
`commit_system` executes the full resolved list against every resident
chunk; hence one pushed `SetBlock i k` — whatever chunk it was pushed for —
rewrites cell `i` of every chunk whose voxel array contains index `i`. -/
theorem commit_applies_to_every_chunk :
    (∀ (q : CommandQueue) (pos1 pos2 : ChunkPos) (cmd : DomainCommand),
      CommandQueue.push q pos1 cmd = CommandQueue.push q pos2 cmd) ∧
    (∀ (w : VoxelWorld) (q : CommandQueue), q.commands ≠ [] →
      (commit_system w q).1.chunks =
        w.chunks.map (fun pc => (pc.1, execList pc.2 (resolve_conflicts q.commands)))) ∧
    (∀ (w : VoxelWorld) (pos : ChunkPos) (i : ℕ) (k : VoxelKind)
        (p : ChunkPos) (c : ChunkData),
      (p, c) ∈ w.chunks → i < c.voxels.length →
      (p, execute_command c (.SetBlock i k)) ∈
        (commit_system w (CommandQueue.push ⟨[]⟩ pos (.SetBlock i k))).1.chunks ∧
      (execute_command c (.SetBlock i k)).voxels.getD i .Air = k) := by
  refine ⟨fun q pos1 pos2 cmd => rfl, fun w q hq => ?_, ?_⟩
  · unfold commit_system
    rw [if_neg (by simpa using hq)]
  · intro w pos i k p c hmem hlen
    have hpush : CommandQueue.push ⟨[]⟩ pos (.SetBlock i k) =
        ⟨[DomainCommand.SetBlock i k]⟩ := rfl
    constructor
    · rw [hpush]
      unfold commit_system
      rw [if_neg (by simp)]
      dsimp only
      rw [resolve_conflicts_single_setBlock]
      refine List.mem_map.mpr ⟨(p, c), hmem, ?_⟩
      rfl
    · simp only [execute_command]
      rw [if_pos hlen]
      exact getD_set_self c.voxels i k VoxelKind.Air hlen

/-- A two-chunk world for the C2 witness. -/
def demoWorld : VoxelWorld :=
  ⟨[(⟨0, 0, 0⟩, stoneChunk), (⟨7, 7, 7⟩, stoneChunk)], []⟩

/-- Witness for C2: a `SetBlock` pushed for chunk (5,5,5) rewrites cell 0 of
the resident chunk at (0,0,0) — and the executed chunk reads back the new
kind at cell 0. -/
theorem commit_applies_to_every_chunk_witness :
    (⟨0, 0, 0⟩, execute_command stoneChunk (.SetBlock 0 .Dirt)) ∈
      (commit_system demoWorld
        (CommandQueue.push ⟨[]⟩ ⟨5, 5, 5⟩ (.SetBlock 0 .Dirt))).1.chunks ∧
    (execute_command stoneChunk (.SetBlock 0 .Dirt)).voxels.getD 0 .Air = .Dirt :=
  commit_applies_to_every_chunk.2.2 demoWorld ⟨5, 5, 5⟩ 0 .Dirt ⟨0, 0, 0⟩ stoneChunk
    (by simp [demoWorld]) (by simp [stoneChunk])
